import Mathlib

/-!
Verification development for the Clio/FlyEM annotation layer of the
stuarteberg/neuroglancer fork.

The TypeScript sources are shallowly embedded:
* JavaScript values are modelled by `JVal` (with `undef`/`null` distinguished,
  `NaN` as `JVal.num Option.none`, objects as insertion-ordered association
  lists, exactly matching JS object key semantics).
* Strings are modelled as `List Char` (`JStr`), with number-to-string
  conversion mirroring JS template-literal stringification of integers.
* Fallible JS code (thrown exceptions) is modelled with `Except`.
* Asynchronous operations are modelled by their synchronous decision
  structure: each operation returns its outcome, the updated annotation
  cache, and the list of network requests it issues.
-/

/-- JS strings are modelled as lists of characters. -/
abbrev JStr := List Char

/-- Conversion from Lean string literals to the model's string type. -/
def S (s : String) : JStr := s.data

/-- JS numbers restricted to the integer values that occur in this layer;
`Option.none` models `NaN` (the only non-integer number produced by the
code paths under verification, via `+` on a non-numeric string). -/
abbrev JSNum := Option Int

/-- Shallow model of JavaScript values: `undef` is `undefined`, `null` is
`null`, objects are insertion-ordered association lists (JS object key
order), arrays are lists. -/
inductive JVal where
  | undef : JVal
  | null : JVal
  | bool : Bool → JVal
  | num : JSNum → JVal
  | str : JStr → JVal
  | arr : List JVal → JVal
  | obj : List (JStr × JVal) → JVal

instance : Inhabited JVal := ⟨JVal.undef⟩

/-- JS truthiness: `undefined`, `null`, `false`, `0`, `NaN` and the empty
string are falsy; every object and array is truthy. -/
def jsTruthy : JVal → Bool
  | JVal.undef => false
  | JVal.null => false
  | JVal.bool b => b
  | JVal.num Option.none => false
  | JVal.num (Option.some i) => decide (i ≠ 0)
  | JVal.str s => decide (s ≠ [])
  | JVal.arr _ => true
  | JVal.obj _ => true

/-- JS `a || b`. -/
def jsOr (a b : JVal) : JVal := if jsTruthy a then a else b

/-- JS `a && b`. -/
def jsAnd (a b : JVal) : JVal := if jsTruthy a then b else a

/-- JS strict equality `===` on the values compared by this layer.  `NaN`
is not equal to itself; objects and arrays compare by reference, and every
such comparison in the embedded code paths compares distinct references,
so they are modelled as unequal. -/
def jsSEq : JVal → JVal → Bool
  | JVal.undef, JVal.undef => true
  | JVal.null, JVal.null => true
  | JVal.bool a, JVal.bool b => a == b
  | JVal.num (Option.some a), JVal.num (Option.some b) => a == b
  | JVal.str a, JVal.str b => a == b
  | _, _ => false

/-- Property read on a JS object value: a missing key yields `undefined`. -/
def objGetD : List (JStr × JVal) → JStr → JVal
  | [], _ => JVal.undef
  | (k', v) :: rest, k => if k' == k then v else objGetD rest k

/-- JS property assignment on an object: an existing key keeps its
position, a new key is appended (JS insertion order). -/
def objSet : List (JStr × JVal) → JStr → JVal → List (JStr × JVal)
  | [], k, v => [(k, v)]
  | (k', v') :: rest, k, v =>
      if k' == k then (k, v) :: rest else (k', v') :: objSet rest k v

/-- JS `delete obj[k]`. -/
def objDel : List (JStr × JVal) → JStr → List (JStr × JVal)
  | [], _ => []
  | (k', v') :: rest, k => if k' == k then rest else (k', v') :: objDel rest k

/-- JS `k in obj`. -/
def objHas : List (JStr × JVal) → JStr → Bool
  | [], _ => false
  | (k', _) :: rest, k => k' == k || objHas rest k

/-- JS property access `v[k]`: throws `TypeError` on `null`/`undefined`,
yields the field (or `undefined`) on objects, and `undefined` on other
primitives and arrays (string-keyed access). -/
def jsGetE : JVal → JStr → Except JStr JVal
  | JVal.undef, _ => Except.error (S "TypeError")
  | JVal.null, _ => Except.error (S "TypeError")
  | JVal.obj fields, k => Except.ok (objGetD fields k)
  | _, _ => Except.ok JVal.undef

/-- Property read on an arbitrary JS value in positions where the embedded
code has already established the value is not `null`/`undefined` (truthy
guard): non-objects yield `undefined`. -/
def jvGet (v : JVal) (k : JStr) : JVal :=
  match v with
  | JVal.obj fields => objGetD fields k
  | _ => JVal.undef

/-- Property assignment in positions where the receiver is an object;
assignment to a non-object is unreachable in the verified code paths and
is modelled as the identity. -/
def jvSet (v : JVal) (k : JStr) (x : JVal) : JVal :=
  match v with
  | JVal.obj fields => JVal.obj (objSet fields k x)
  | _ => v

/-- Decimal digit character for a value below ten. -/
def digitChar : Nat → Char
  | 0 => '0' | 1 => '1' | 2 => '2' | 3 => '3' | 4 => '4'
  | 5 => '5' | 6 => '6' | 7 => '7' | 8 => '8' | _ => '9'

/-- Fuel-driven decimal rendering of a natural number (fuel keeps the
definition kernel-reducible; `natToChars` supplies sufficient fuel). -/
def natToCharsAux : Nat → Nat → JStr
  | 0, _ => []
  | Nat.succ fuel, n =>
      if n < 10 then [digitChar n]
      else natToCharsAux fuel (n / 10) ++ [digitChar (n % 10)]

/-- Decimal rendering of a natural number, as JS renders integers. -/
def natToChars (n : Nat) : JStr := natToCharsAux (n + 1) n

/-- JS rendering of an integer in a template literal. -/
def intToChars (i : Int) : JStr :=
  if i < 0 then '-' :: natToChars i.natAbs else natToChars i.toNat

/-- JS rendering of a number (integer or `NaN`). -/
def numToChars : JSNum → JStr
  | Option.none => S "NaN"
  | Option.some i => intToChars i

/-- JS `String(v)` / template-literal interpolation for the primitive
values interpolated by this layer. -/
def jsToChars : JVal → JStr
  | JVal.undef => S "undefined"
  | JVal.null => S "null"
  | JVal.bool b => if b then S "true" else S "false"
  | JVal.num n => numToChars n
  | JVal.str s => s
  | JVal.arr _ => []
  | JVal.obj _ => S "[object Object]"

/-- JS array element access `a[i]` (out of range or non-array yields
`undefined`; `Float32Array` cells are JS numbers). -/
def jsIndex (v : JVal) (i : Nat) : JVal :=
  match v with
  | JVal.arr xs => (xs.getD i JVal.undef)
  | _ => JVal.undef

/-- JS `s.split(sep)` for a one-character separator. -/
def splitOnChar (sep : Char) : JStr → List JStr
  | [] => [[]]
  | c :: cs =>
      if c = sep then [] :: splitOnChar sep cs
      else
        match splitOnChar sep cs with
        | [] => [[c]]
        | s :: rest => (c :: s) :: rest

/-- Numeric value of a digit character. -/
def digVal (c : Char) : Nat := c.toNat - 48

/-- Value of a decimal digit string. -/
def natValOf (ds : JStr) : Nat := ds.foldl (fun a c => a * 10 + digVal c) 0

/-- JS `+s` (string-to-number conversion) restricted to the literal forms
reaching it in this layer: the empty string is `0`, an optionally signed
decimal integer literal is its value, anything else is `NaN` (`none`).
Fractional or exponent literals never reach this conversion here. -/
def jsPlusChars (s : JStr) : JSNum :=
  if s = [] then Option.some 0
  else if s.head? = Option.some '-' then
    if s.tail ≠ [] ∧ s.tail.all Char.isDigit then Option.some (-(natValOf s.tail : Int))
    else Option.none
  else if s.head? = Option.some '+' then
    if s.tail ≠ [] ∧ s.tail.all Char.isDigit then Option.some ((natValOf s.tail : Nat) : Int)
    else Option.none
  else
    if s.all Char.isDigit then Option.some ((natValOf s : Nat) : Int)
    else Option.none

/-- Modelled from the spec: the geometric discriminant enum
(`AnnotationType` in `neuroglancer/annotation/index.ts`, which is not
under `src/`).  The spec's data model is a "discriminated union over
geometric kind: Point, Line, Sphere" in that order; as a TypeScript
numeric enum its members are numbered from zero in declaration order, so
`POINT` is `0` (falsy in JS) and `LINE`/`SPHERE` are nonzero.  Only the
falsiness of `POINT` and the distinctness of the three values are relied
upon by the embedded code. -/
def AT_POINT : Nat := 0

/-- Line discriminant value (nonzero; see `AT_POINT`). -/
def AT_LINE : Nat := 1

/-- Sphere discriminant value (nonzero; see `AT_POINT`). -/
def AT_SPHERE : Nat := 2

/-- Maximal run of decimal digits at the head of the input (regex `\d+`
is greedy; wherever this is used deterministically, the following regex
token cannot consume a digit). -/
def takeDigits : JStr → JStr × JStr
  | [] => ([], [])
  | c :: cs =>
      if c.isDigit then
        let r := takeDigits cs
        (c :: r.1, r.2)
      else ([], c :: cs)

/-- Regex fragment `\d+` (maximal): remaining input on success. -/
def pNum (cs : JStr) : Option JStr :=
  let r := takeDigits cs
  if r.1 = [] then Option.none else Option.some r.2

/-- Regex fragment `-?\d+` (the optional sign is committed: if a `-` is
present but no digit follows, the empty alternative fails as well, since
`\d+` cannot consume the `-`). -/
def pSNum (cs : JStr) : Option JStr :=
  if cs.head? = Option.some '-' then pNum cs.tail else pNum cs

/-- Regex fragment matching a single literal character. -/
def pChar (c : Char) : JStr → Option JStr
  | c' :: cs => if c' = c then Option.some cs else Option.none
  | [] => Option.none

/-- Regex fragment `-?\d+_-?\d+_-?\d+`: remaining input on success. -/
def pTriple (cs : JStr) : Option JStr :=
  match pSNum cs with
  | Option.none => Option.none
  | Option.some r1 =>
      match pChar '_' r1 with
      | Option.none => Option.none
      | Option.some r2 =>
          match pSNum r2 with
          | Option.none => Option.none
          | Option.some r3 =>
              match pChar '_' r3 with
              | Option.none => Option.none
              | Option.some r4 => pSNum r4

/-- Regex `/^-?\d+_-?\d+_-?\d+[\[]?/` (the trailing optional `[` and the
absence of an end anchor make everything after the coordinate triple
irrelevant). -/
def matchPointBare (cs : JStr) : Bool := (pTriple cs).isSome

/-- Regex `/^Pt-?\d+_-?\d+_-?\d+/`. -/
def matchPtForm : JStr → Bool
  | 'P' :: 't' :: cs => (pTriple cs).isSome
  | _ => false

/-- Regex `/^-?\d+_-?\d+_-?\d+--?\d+_-?\d+_-?\d+-<word>$/` for
`word ∈ {Line, Sphere}` (anchored at both ends). -/
def matchBareShape (word : JStr) (cs : JStr) : Bool :=
  match pTriple cs with
  | Option.none => false
  | Option.some rest =>
      match rest with
      | '-' :: rest2 =>
          match pTriple rest2 with
          | Option.none => false
          | Option.some rest3 => rest3 == '-' :: word
      | _ => false

/-- Regex fragment `\d+_-?\d+_-?\d+` (prefix; no end anchor). -/
def pTail3 (cs : JStr) : Bool :=
  (match pNum cs with
   | Option.none => Option.none
   | Option.some r1 =>
       match pChar '_' r1 with
       | Option.none => Option.none
       | Option.some r2 =>
           match pSNum r2 with
           | Option.none => Option.none
           | Option.some r3 =>
               match pChar '_' r3 with
               | Option.none => Option.none
               | Option.some r4 => pSNum r4).isSome

/-- Regex fragment `_-?\d+_-?\d+` (prefix; no end anchor). -/
def pTail2 (cs : JStr) : Bool :=
  (match pChar '_' cs with
   | Option.none => Option.none
   | Option.some r1 =>
       match pSNum r1 with
       | Option.none => Option.none
       | Option.some r2 =>
           match pChar '_' r2 with
           | Option.none => Option.none
           | Option.some r3 => pSNum r3).isSome

/-- Tail of the regexes `/^Ln-?\d+_-?\d+_-?\d+_?\d+_-?\d+_-?\d+/` and the
analogous `Sp` form, after the first two `-?\d+_` groups.  The third
group `-?\d+` is followed by `_?\d+` (the source regex omits `-?` before
the fourth number), so the engine may backtrack inside the third digit
run: with the maximal digit run `R` after the optional sign and `Sfx` the
input after `R`, the pattern matches iff `R` is nonempty and either
(A) `Sfx` starts with `_` and its tail matches `\d+_-?\d+_-?\d+` (third
group takes all of `R`, `_?` consumes the underscore), or (B) `R` has at
least two digits and `Sfx` matches `_-?\d+_-?\d+` (the third group stops
early, `_?` matches empty, and the fourth number takes the rest of `R`). -/
def matchLnSpTail (cs : JStr) : Bool :=
  let cs1 := match cs with
    | '-' :: rest => rest
    | rest => rest
  let r := takeDigits cs1
  if r.1 = [] then false
  else
    (match r.2 with
     | '_' :: t => pTail3 t
     | _ => false)
    || (decide (r.1.length ≥ 2) && pTail2 r.2)

/-- Regex `/^Ln-?\d+_-?\d+_-?\d+_?\d+_-?\d+_-?\d+/` (see
`matchLnSpTail` for the handling of the misplaced `_?`). -/
def matchLnForm : JStr → Bool
  | 'L' :: 'n' :: cs =>
      (match pSNum cs with
       | Option.none => Option.none
       | Option.some r1 =>
           match pChar '_' r1 with
           | Option.none => Option.none
           | Option.some r2 =>
               match pSNum r2 with
               | Option.none => Option.none
               | Option.some r3 => pChar '_' r3).elim false matchLnSpTail
  | _ => false

/-- Regex `/^Sp-?\d+_-?\d+_-?\d+_?\d+_-?\d+_-?\d+/`. -/
def matchSpForm : JStr → Bool
  | 'S' :: 'p' :: cs =>
      (match pSNum cs with
       | Option.none => Option.none
       | Option.some r1 =>
           match pChar '_' r1 with
           | Option.none => Option.none
           | Option.some r2 =>
               match pSNum r2 with
               | Option.none => Option.none
               | Option.some r3 => pChar '_' r3).elim false matchLnSpTail
  | _ => false

/-- `typeOfAnnotationId` (flyem/annotation.ts): classifies an id string by
the regex cascade; the Point patterns are tried first, then Line, then
Sphere; `none` models the `null` (invalid) result. -/
def typeOfAnnotationId (id : JStr) : Option Nat :=
  if matchPointBare id || matchPtForm id then Option.some AT_POINT
  else if matchBareShape (S "Line") id || matchLnForm id then Option.some AT_LINE
  else if matchBareShape (S "Sphere") id || matchSpForm id then Option.some AT_SPHERE
  else Option.none

/-- `isAnnotationIdValid` (flyem/annotation.ts). -/
def isAnnotationIdValid (id : JStr) : Bool := (typeOfAnnotationId id).isSome

/-- `getAnnotationUser` (flyem/annotation.ts):
`(annotation.ext && annotation.ext.user) || (annotation.prop && annotation.prop.user)`. -/
def getAnnotationUser (ann : JVal) : JVal :=
  jsOr (jsAnd (jvGet ann (S "ext")) (jvGet (jvGet ann (S "ext")) (S "user")))
    (jsAnd (jvGet ann (S "prop")) (jvGet (jvGet ann (S "prop")) (S "user")))

/-- `getAnnotationKey` (flyem/annotation.ts): an explicit `keyHandle` or a
truthy `annotation.key` is authoritative; otherwise the key is derived
from the geometry by template interpolation. -/
def getAnnotationKey (ann : JVal) (keyHandle : JVal) : JVal :=
  let key := jsOr keyHandle (jvGet ann (S "key"))
  if jsTruthy key then key
  else
    let t := jvGet ann (S "type")
    if jsSEq t (JVal.num (Option.some AT_POINT)) then
      JVal.str (S "Pt" ++ jsToChars (jsIndex (jvGet ann (S "point")) 0)
        ++ S "_" ++ jsToChars (jsIndex (jvGet ann (S "point")) 1)
        ++ S "_" ++ jsToChars (jsIndex (jvGet ann (S "point")) 2))
    else if jsSEq t (JVal.num (Option.some AT_LINE)) then
      JVal.str (S "Ln" ++ jsToChars (jsIndex (jvGet ann (S "pointA")) 0)
        ++ S "_" ++ jsToChars (jsIndex (jvGet ann (S "pointA")) 1)
        ++ S "_" ++ jsToChars (jsIndex (jvGet ann (S "pointA")) 2)
        ++ S "_" ++ jsToChars (jsIndex (jvGet ann (S "pointB")) 0)
        ++ S "_" ++ jsToChars (jsIndex (jvGet ann (S "pointB")) 1)
        ++ S "_" ++ jsToChars (jsIndex (jvGet ann (S "pointB")) 2))
    else if jsSEq t (JVal.num (Option.some AT_SPHERE)) then
      JVal.str (S "Sp" ++ jsToChars (jsIndex (jvGet ann (S "pointA")) 0)
        ++ S "_" ++ jsToChars (jsIndex (jvGet ann (S "pointA")) 1)
        ++ S "_" ++ jsToChars (jsIndex (jvGet ann (S "pointA")) 2)
        ++ S "_" ++ jsToChars (jsIndex (jvGet ann (S "pointB")) 0)
        ++ S "_" ++ jsToChars (jsIndex (jvGet ann (S "pointB")) 1)
        ++ S "_" ++ jsToChars (jsIndex (jvGet ann (S "pointB")) 2))
    else key

/-- `getAnnotationId` (flyem/annotation.ts):
the template `${getAnnotationKey(annotation, keyHandle)}[user:${getAnnotationUser(annotation)}]`. -/
def getAnnotationId (ann : JVal) (keyHandle : JVal) : JStr :=
  jsToChars (getAnnotationKey ann keyHandle) ++ S "[user:"
    ++ jsToChars (getAnnotationUser ann) ++ S "]"

/-- Start positions at which `needle` occurs in `hay`. -/
def positionsOf (needle hay : JStr) : List Nat :=
  (List.range (hay.length + 1)).filter (fun i => needle.isPrefixOf (hay.drop i))

/-- `parseAnnotationId` (flyem/annotation.ts): the regex
`/(.*)\[user:(.*)\]/` with greedy groups — the engine picks the last
occurrence of `[user:` that is followed by some `]`, and the second group
extends to the last `]` after it. -/
def parseAnnotationId (id : JStr) : Option (JStr × JStr) :=
  let closers := positionsOf (S "]") id
  let ps := (positionsOf (S "[user:") id).filter
    (fun p => (closers.filter (fun q => p + 6 ≤ q)) ≠ [])
  match ps.getLast? with
  | Option.none => Option.none
  | Option.some p =>
      match (closers.filter (fun q => p + 6 ≤ q)).getLast? with
      | Option.none => Option.none
      | Option.some q => Option.some (id.take p, (id.drop (p + 6)).take (q - (p + 6)))

/-- JS object spread `{...a, ...b}` (spreading `undefined`/`null`
contributes nothing; keys of `b` override keys of `a`, new keys append). -/
def objSpread2 (a b : JVal) : JVal :=
  let fa := match a with
    | JVal.obj f => f
    | _ => []
  let fb := match b with
    | JVal.obj f => f
    | _ => []
  JVal.obj (fb.foldl (fun acc kv => objSet acc kv.1 kv.2) fa)

/-- The base facade's `ext` getter (flyem/annotation.ts): creates an empty
object when the annotation has no `ext`.  The creation is observationally
pure (reading any field of the fresh empty object yields `undefined`), so
it is modelled as a read. -/
def facadeExt (ann : JVal) : JVal :=
  match jvGet ann (S "ext") with
  | JVal.undef => JVal.obj []
  | v => v

/-- Write a field of `annotation.ext`, creating `ext` first as the base
facade's `ext` getter does. -/
def setExtField (ann : JVal) (k : JStr) (v : JVal) : JVal :=
  jvSet ann (S "ext") (jvSet (facadeExt ann) k v)

/-- `ClioAnnotationFacade.title` getter: `annotation.ext && annotation.ext.title`. -/
def clioTitle (ann : JVal) : JVal :=
  jsAnd (jvGet ann (S "ext")) (jvGet (jvGet ann (S "ext")) (S "title"))

/-- `ClioAnnotationFacade.description` getter:
`annotation.ext && annotation.ext.description`. -/
def clioDescription (ann : JVal) : JVal :=
  jsAnd (jvGet ann (S "ext")) (jvGet (jvGet ann (S "ext")) (S "description"))

/-- `ClioAnnotationFacade.user` getter: `annotation.ext && annotation.ext.user`. -/
def clioUser (ann : JVal) : JVal :=
  jsAnd (jvGet ann (S "ext")) (jvGet (jvGet ann (S "ext")) (S "user"))

/-- `ClioAnnotationFacade.checked` getter: `this.ext && this.ext.verified`
(through the creating `ext` getter). -/
def clioChecked (ann : JVal) : JVal :=
  jsAnd (facadeExt ann) (jvGet (facadeExt ann) (S "verified"))

/-- The base facade's `prop` getter. -/
def facadeProp (ann : JVal) : JVal := jvGet ann (S "prop")

/-- `AnnotationFacade.setProp`: `this.prop = {...this.prop, ...prop}`. -/
def facadeSetProp (ann : JVal) (p : JVal) : JVal :=
  jvSet ann (S "prop") (objSpread2 (facadeProp ann) p)

/-- `AnnotationFacade.bookmarkType`: classifies `prop.type` (`'Split'` ↦
`'False Merge'`, `'Merge'` ↦ `'False Split'`, anything else ↦ `'Other'`). -/
def bookmarkType (ann : JVal) : JStr :=
  if jsTruthy (facadeProp ann) then
    if jsSEq (jvGet (facadeProp ann) (S "type")) (JVal.str (S "Split")) then S "False Merge"
    else if jsSEq (jvGet (facadeProp ann) (S "type")) (JVal.str (S "Merge")) then S "False Split"
    else S "Other"
  else S "Other"

/-- `AnnotationFacade.renderingAttribute` as dispatched through
`ClioAnnotationFacade` (`title`/`checked` read from `ext`). -/
def renderingAttr (ann : JVal) : Int :=
  if jsSEq (jvGet ann (S "kind")) (JVal.str (S "Atlas")) then
    if ¬jsTruthy (clioTitle ann) then -1
    else if jsTruthy (clioChecked ann) then 1
    else 0
  else
    if bookmarkType ann == S "False Split" then 2
    else if bookmarkType ann == S "False Merge" then 3
    else 0

/-- `AnnotationFacade.updateProperties`:
`annotation.properties = [this.renderingAttribute]`. -/
def updateProperties (ann : JVal) : JVal :=
  jvSet ann (S "properties") (JVal.arr [JVal.num (Option.some (renderingAttr ann))])

/-- `AnnotationFacade.updatePresentation` as dispatched through
`ClioAnnotationFacade` (`title` and `description` read from `ext`):
rebuilds `annotation.description` as `title + ": "` (or the empty string)
followed by the `ext` description when present. -/
def updatePresentation (ann : JVal) : JVal :=
  let a1 :=
    if jsTruthy (clioTitle ann) then
      jvSet ann (S "description") (JVal.str (jsToChars (clioTitle ann) ++ S ": "))
    else
      jvSet ann (S "description") (JVal.str [])
  if jsTruthy (clioDescription a1) then
    jvSet a1 (S "description")
      (JVal.str (jsToChars (jvGet a1 (S "description")) ++ jsToChars (clioDescription a1)))
  else a1

/-- `AnnotationFacade.update`: `updatePresentation(); updateProperties();`. -/
def facadeUpdate (ann : JVal) : JVal := updateProperties (updatePresentation ann)

/-- `AnnotationFacade.presentation` getter: runs `updatePresentation` and
yields `annotation.description || ''`; returns the mutated annotation
together with the value. -/
def presentationGet (ann : JVal) : JVal × JVal :=
  let a := updatePresentation ann
  (a, jsOr (jvGet a (S "description")) (JVal.str []))

/-- The per-endpoint annotation cache: a JS `Map` from id strings to raw
backend entries, in insertion order. -/
abbrev Store := List (JStr × JVal)

/-- `AnnotationStore.add`: a no-op for an empty (falsy) id. -/
def storeAdd (st : Store) (id : JStr) (v : JVal) : Store :=
  if id ≠ [] then objSet st id v else st

/-- `AnnotationStore.update` is an alias for `add` (last write wins). -/
def storeUpdate (st : Store) (id : JStr) (v : JVal) : Store := storeAdd st id v

/-- `AnnotationStore.remove`. -/
def storeRemove (st : Store) (id : JStr) : Store := objDel st id

/-- `AnnotationStore.getValue`: `undefined` when the id is absent. -/
def storeGetValue (st : Store) (id : JStr) : JVal := objGetD st id

/-- JS `k in v`: valid on objects and arrays, a `TypeError` on primitives
and `null`/`undefined`. -/
def jsHasE : JVal → JStr → Except JStr Bool
  | JVal.obj f, k => Except.ok (objHas f k)
  | JVal.arr _, _ => Except.ok false
  | _, _ => Except.error (S "TypeError")

/-- Modelled from the spec: `verifyObject` from `neuroglancer/util/json`
(not under `src/`): accepts a plain JSON object and throws otherwise. -/
def verifyObject : JVal → Except JStr JVal
  | JVal.obj f => Except.ok (JVal.obj f)
  | _ => Except.error (S "Error: expected JSON object")

/-- Modelled from the spec: `verifyString` from `neuroglancer/util/json`:
accepts a string value and throws otherwise. -/
def verifyString : JVal → Except JStr JVal
  | JVal.str s => Except.ok (JVal.str s)
  | _ => Except.error (S "Error: expected string")

/-- Modelled from the spec: `verifyBoolean` from `neuroglancer/util/json`:
accepts a boolean value and throws otherwise. -/
def verifyBoolean : JVal → Except JStr JVal
  | JVal.bool b => Except.ok (JVal.bool b)
  | _ => Except.error (S "Error: expected boolean")

/-- Modelled from the spec: `verifyObjectProperty` from
`neuroglancer/util/json`: reads the property (throwing on a
`null`/`undefined` receiver) and applies the verifier to it. -/
def verifyObjectProperty (v : JVal) (k : JStr) (f : JVal → Except JStr JVal) :
    Except JStr JVal := do
  let x ← jsGetE v k
  f x

/-- Modelled from the spec: `parseIntVec` from `neuroglancer/util/json`
applied to a fresh length-`n` vector: accepts an array of exactly `n`
integers ("coordinates persisted to the remote store are always
integers") and throws otherwise. -/
def parseIntVec (n : Nat) : JVal → Except JStr (List JSNum)
  | JVal.arr xs =>
      if xs.length = n ∧ xs.all (fun x => match x with
          | JVal.num (Option.some _) => true
          | _ => false) then
        Except.ok (xs.map (fun x => match x with
          | JVal.num m => m
          | _ => Option.none))
      else Except.error (S "Error: expected integer vector")
  | _ => Except.error (S "Error: expected integer vector")

/-- `decodeAnnotationPropV2` (clio/utils.ts): copies `prop`, `description`,
`title`, `user` and `verified` from a family-B entry onto the annotation
(the latter four through the `ClioAnnotationFacade` setters, i.e. into
`ext`), refreshes the derived presentation, and overwrites `id` with the
derived id. -/
def decodeAnnotationPropV2 (entry out0 : JVal) : Except JStr JVal := do
  let hasProp ← jsHasE entry (S "prop")
  let out1 ←
    if hasProp then do
      let p ← verifyObjectProperty entry (S "prop") verifyObject
      pure (jvSet out0 (S "prop") p)
    else pure out0
  let out2 ←
    if jsTruthy (jvGet entry (S "description")) then do
      let d ← verifyObjectProperty entry (S "description") verifyString
      pure (setExtField out1 (S "description") d)
    else pure out1
  let out3 ←
    if jsTruthy (jvGet entry (S "title")) then do
      let t ← verifyObjectProperty entry (S "title") verifyString
      pure (setExtField out2 (S "title") t)
    else pure out2
  let out4 ←
    if jsTruthy (jvGet entry (S "user")) then do
      let u ← verifyObjectProperty entry (S "user") verifyString
      pure (setExtField out3 (S "user") u)
    else pure out3
  let hasVerified ← jsHasE entry (S "verified")
  let out5 ←
    if hasVerified then do
      let v ← verifyObjectProperty entry (S "verified") verifyBoolean
      pure (setExtField out4 (S "verified") v)
    else pure out4
  let out6 := facadeUpdate out5
  pure (jvSet out6 (S "id") (JVal.str (getAnnotationId out6 JVal.undef)))

/-- `V1PointAnnotationRequestHelper.getPositionFromKey`: splits the key on
`_` and converts each part with JS `+`; yields a position exactly when the
split has three parts (the parts themselves may convert to `NaN`). -/
def getPositionFromKey (key : JStr) : Option (List JSNum) :=
  if key ≠ [] then
    let pos := (splitOnChar '_' key).map jsPlusChars
    if pos.length = 3 then Option.some pos else Option.none
  else Option.none

/-- `V1PointAnnotationRequestHelper.encode`: the flat family-A entry
`{Kind, description?, title?, user, Prop?}` with `comment`/`user`/`title`
stripped from the copied `Prop`. -/
def v1PointEncode (ann : JVal) : Option JVal :=
  let obj0 : List (JStr × JVal) := [(S "Kind", jvGet ann (S "kind"))]
  let pres := (presentationGet ann).2
  let obj1 :=
    if ¬jsSEq pres JVal.undef then objSet obj0 (S "description") pres
    else if jsSEq (jvGet ann (S "kind")) (JVal.str (S "Atlas")) then
      objSet obj0 (S "description") (JVal.str [])
    else obj0
  let obj2 :=
    if ¬jsSEq (clioTitle ann) JVal.undef then objSet obj1 (S "title") (clioTitle ann)
    else obj1
  let obj3 := objSet obj2 (S "user") (clioUser ann)
  let obj4 :=
    if jsTruthy (jvGet ann (S "prop")) then
      let p0 := objSpread2 (jvGet ann (S "prop")) (JVal.obj [])
      let p1 := match p0 with
        | JVal.obj f => JVal.obj (objDel (objDel (objDel f (S "comment")) (S "user")) (S "title"))
        | v => v
      objSet obj3 (S "Prop") p1
    else obj3
  Option.some (JVal.obj obj4)

/-- `V1PointAnnotationRequestHelper.decode` before its `try`/`catch`
wrapper: position from the key (falling back to the `location`/`Pos`
field), `Prop`/`description`/`title`/`user` copied through the facade,
then `update()`. -/
def v1PointDecodeE (key : JStr) (entry : JVal) : Except JStr JVal := do
  let kind ← verifyObjectProperty entry (S "Kind") verifyString
  let corner0 := getPositionFromKey key
  let corner ←
    match corner0 with
    | Option.some c => pure c
    | Option.none => do
        let hasLocation ← jsHasE entry (S "location")
        let posKey := if hasLocation then S "location" else S "Pos"
        let x ← jsGetE entry posKey
        parseIntVec 3 x
  let hasProp ← jsHasE entry (S "Prop")
  let prop ←
    if hasProp then verifyObjectProperty entry (S "Prop") verifyObject
    else pure (JVal.obj [])
  let hasDescription ← jsHasE entry (S "description")
  let description ←
    if hasDescription then verifyObjectProperty entry (S "description") verifyString
    else pure (JVal.str [])
  let hasTitle ← jsHasE entry (S "title")
  let title ←
    if hasTitle then verifyObjectProperty entry (S "title") verifyString
    else pure (JVal.str [])
  let hasUser ← jsHasE entry (S "user")
  let user ←
    if hasUser then verifyObjectProperty entry (S "user") verifyString
    else pure (JVal.str [])
  let ann0 := JVal.obj [
    (S "point", JVal.arr (corner.map JVal.num)),
    (S "type", JVal.num (Option.some AT_POINT)),
    (S "properties", JVal.arr []),
    (S "kind", kind),
    (S "id", JVal.str (numToChars (corner.getD 0 Option.none) ++ S "_"
      ++ numToChars (corner.getD 1 Option.none) ++ S "_"
      ++ numToChars (corner.getD 2 Option.none))),
    (S "prop", JVal.obj [])]
  let ann1 := jvSet ann0 (S "prop") prop
  let ann2 := if jsTruthy description then jvSet ann1 (S "description") description else ann1
  let ann3 := if jsTruthy title then setExtField ann2 (S "title") title else ann2
  let ann4 := if jsTruthy user then setExtField ann3 (S "user") user else ann3
  pure (facadeUpdate ann4)

/-- `V1PointAnnotationRequestHelper.decode` (the `catch` yields `null`). -/
def v1PointDecode (key : JStr) (entry : JVal) : Option JVal :=
  (v1PointDecodeE key entry).toOption

/-- `encodeAnnotationV2` (clio/utils.ts): `null` without a facade user,
otherwise the family-B envelope `{tags, description, user, verified?,
title?, prop}`. -/
def encodeAnnotationV2 (ann : JVal) : Option JVal :=
  if ¬jsTruthy (clioUser ann) then Option.none
  else
    let obj0 : List (JStr × JVal) := [(S "tags", JVal.arr [])]
    let obj1 := objSet obj0 (S "description") (clioDescription ann)
    let obj2 := objSet obj1 (S "user") (clioUser ann)
    let obj3 :=
      if ¬jsSEq (clioChecked ann) JVal.undef then objSet obj2 (S "verified") (clioChecked ann)
      else obj2
    let obj4 :=
      if ¬jsSEq (clioTitle ann) JVal.undef then objSet obj3 (S "title") (clioTitle ann)
      else obj3
    let obj5 := objSet obj4 (S "prop") (objSpread2 (jvGet ann (S "prop")) (JVal.obj []))
    Option.some (JVal.obj obj5)

/-- `V2PointAnnotationRequestHelper.encode` (with the subclass's
`defaultKind` irrelevant to encoding): the family-B envelope plus
`kind: 'point'` and the 3-vector `pos`. -/
def v2PointEncode (ann : JVal) : Option JVal :=
  match encodeAnnotationV2 ann with
  | Option.none => Option.none
  | Option.some o =>
      let o1 := jvSet o (S "kind") (JVal.str (S "point"))
      let pt := jvGet ann (S "point")
      Option.some (jvSet o1 (S "pos")
        (JVal.arr [jsIndex pt 0, jsIndex pt 1, jsIndex pt 2]))

/-- `V2LineAnnotationRequestHelper.encode`: `kind: 'lineseg'` and the
6-vector `pos` from `pointA`/`pointB`. -/
def v2LineEncode (ann : JVal) : Option JVal :=
  match encodeAnnotationV2 ann with
  | Option.none => Option.none
  | Option.some o =>
      let o1 := jvSet o (S "kind") (JVal.str (S "lineseg"))
      let pa := jvGet ann (S "pointA")
      let pb := jvGet ann (S "pointB")
      Option.some (jvSet o1 (S "pos")
        (JVal.arr [jsIndex pa 0, jsIndex pa 1, jsIndex pa 2,
          jsIndex pb 0, jsIndex pb 1, jsIndex pb 2]))

/-- `V2SphereAnnotationRequestHelper.encode`: `kind: 'sphere'` and the
6-vector `pos` from `pointA`/`pointB`. -/
def v2SphereEncode (ann : JVal) : Option JVal :=
  match encodeAnnotationV2 ann with
  | Option.none => Option.none
  | Option.some o =>
      let o1 := jvSet o (S "kind") (JVal.str (S "sphere"))
      let pa := jvGet ann (S "pointA")
      let pb := jvGet ann (S "pointB")
      Option.some (jvSet o1 (S "pos")
        (JVal.arr [jsIndex pa 0, jsIndex pa 1, jsIndex pa 2,
          jsIndex pb 0, jsIndex pb 1, jsIndex pb 2]))

/-- `V2PointAnnotationRequestHelper.decode` before its `try`/`catch`:
requires `kind` to be exactly `'point'`, parses the 3-vector `pos`, and
fills the annotation through `decodeAnnotationPropV2`.  `defaultKind` is
`'Normal'` for the plain helper and `'Atlas'` for the Atlas subclass. -/
def v2PointDecodeE (defaultKind : JStr) (key : JStr) (entry : JVal) :
    Except JStr JVal := do
  let k ← verifyObjectProperty entry (S "kind") verifyString
  if jsSEq k (JVal.str (S "point")) then do
    let x ← jsGetE entry (S "pos")
    let point ← parseIntVec 3 x
    let ann0 := JVal.obj [
      (S "id", JVal.str []),
      (S "key", JVal.str key),
      (S "type", JVal.num (Option.some AT_POINT)),
      (S "kind", JVal.str defaultKind),
      (S "point", JVal.arr (point.map JVal.num)),
      (S "properties", JVal.arr [])]
    decodeAnnotationPropV2 entry ann0
  else Except.error (S "Invalid kind for point annotation data.")

/-- `V2PointAnnotationRequestHelper.decode` (the `catch` yields `null`). -/
def v2PointDecode (defaultKind : JStr) (key : JStr) (entry : JVal) : Option JVal :=
  (v2PointDecodeE defaultKind key entry).toOption

/-- `V2LineAnnotationRequestHelper.decode` before its `try`/`catch`:
requires `kind` to be exactly `'lineseg'` and splits the 6-vector `pos`
into `pointA`/`pointB`. -/
def v2LineDecodeE (key : JStr) (entry : JVal) : Except JStr JVal := do
  let k ← verifyObjectProperty entry (S "kind") verifyString
  if jsSEq k (JVal.str (S "lineseg")) then do
    let x ← jsGetE entry (S "pos")
    let pos ← parseIntVec 6 x
    let ann0 := JVal.obj [
      (S "id", JVal.str []),
      (S "key", JVal.str key),
      (S "type", JVal.num (Option.some AT_LINE)),
      (S "pointA", JVal.arr ((pos.take 3).map JVal.num)),
      (S "pointB", JVal.arr ((pos.drop 3).map JVal.num)),
      (S "properties", JVal.arr [])]
    decodeAnnotationPropV2 entry ann0
  else Except.error (S "Invalid kind for line annotation data.")

/-- `V2LineAnnotationRequestHelper.decode` (the `catch` yields `null`). -/
def v2LineDecode (key : JStr) (entry : JVal) : Option JVal :=
  (v2LineDecodeE key entry).toOption

/-- `V2SphereAnnotationRequestHelper.decode` before its `try`/`catch`:
requires `kind` to be exactly `'sphere'` and splits the 6-vector `pos`
into `pointA`/`pointB`. -/
def v2SphereDecodeE (key : JStr) (entry : JVal) : Except JStr JVal := do
  let k ← verifyObjectProperty entry (S "kind") verifyString
  if jsSEq k (JVal.str (S "sphere")) then do
    let x ← jsGetE entry (S "pos")
    let pos ← parseIntVec 6 x
    let ann0 := JVal.obj [
      (S "id", JVal.str []),
      (S "key", JVal.str key),
      (S "type", JVal.num (Option.some AT_SPHERE)),
      (S "pointA", JVal.arr ((pos.take 3).map JVal.num)),
      (S "pointB", JVal.arr ((pos.drop 3).map JVal.num)),
      (S "properties", JVal.arr [])]
    decodeAnnotationPropV2 entry ann0
  else Except.error (S "Invalid kind for line annotation data.")

/-- `V2SphereAnnotationRequestHelper.decode` (the `catch` yields `null`). -/
def v2SphereDecode (key : JStr) (entry : JVal) : Option JVal :=
  (v2SphereDecodeE key entry).toOption

/-- The concrete `AnnotationRequestHelper` strategy objects produced by
`makeEncoders` (all constructed with `sendingToServer = true`). -/
inductive Helper where
  | v1Point : Helper
  | v2Point : Helper
  | v2Line : Helper
  | v2Sphere : Helper
  | v2Atlas : Helper
deriving DecidableEq

/-- Encoding through a helper (`encode`). -/
def helperEncode : Helper → JVal → Option JVal
  | Helper.v1Point, ann => v1PointEncode ann
  | Helper.v2Point, ann => v2PointEncode ann
  | Helper.v2Line, ann => v2LineEncode ann
  | Helper.v2Sphere, ann => v2SphereEncode ann
  | Helper.v2Atlas, ann => v2PointEncode ann

/-- Decoding through a helper (`decode`). -/
def helperDecode : Helper → JStr → JVal → Option JVal
  | Helper.v1Point, key, entry => v1PointDecode key entry
  | Helper.v2Point, key, entry => v2PointDecode (S "Normal") key entry
  | Helper.v2Line, key, entry => v2LineDecode key entry
  | Helper.v2Sphere, key, entry => v2SphereDecode key entry
  | Helper.v2Atlas, key, entry => v2PointDecode (S "Atlas") key entry

/-- The helper's `uploadable` policy applied to a decoded annotation (or
to the `null` produced by a failed decode, as happens when
`ClioAnnotationSource.uploadable` is called with an id).  The base
implementation returns `sendingToServer` (`true`); the Atlas subclass
additionally requires a nonempty string title, and constructing its
facade over `null` throws a `TypeError`. -/
def helperUploadable : Helper → Option JVal → Except JStr Bool
  | Helper.v2Atlas, arg =>
      match arg with
      | Option.none => Except.error (S "TypeError")
      | Option.some ann =>
          match clioTitle ann with
          | JVal.str t => Except.ok (decide (t.length > 0))
          | _ => Except.ok false
  | _, _ => Except.ok true

/-- `makeEncoders` (clio/utils.ts): family B (`v2`/`v3`/`test`) has
point/line/sphere helpers (point-only Atlas variant for the `Atlas`
kind); every other api value falls back to the family-A v1 point-only
helper.  `none` models an absent entry of the helper table (indexing it
yields `undefined`). -/
def makeEncoders (api kind : Option JStr) : Nat → Option Helper :=
  if api = Option.some (S "v2") ∨ api = Option.some (S "v3")
      ∨ api = Option.some (S "test") then
    if kind = Option.some (S "Atlas") then
      fun t => if t = AT_POINT then Option.some Helper.v2Atlas else Option.none
    else
      fun t =>
        if t = AT_POINT then Option.some Helper.v2Point
        else if t = AT_LINE then Option.some Helper.v2Line
        else if t = AT_SPHERE then Option.some Helper.v2Sphere
        else Option.none
  else fun t => if t = AT_POINT then Option.some Helper.v1Point else Option.none

/-- `ClioSourceParameters` (clio/base.ts): the fields this layer reads
(optional fields are `undefined` when absent). -/
structure ClioParams where
  baseUrl : JStr
  dataset : JStr
  api : Option JStr
  kind : Option JStr
  user : Option JStr
  groups : Option JStr
  authServer : Option JStr

/-- An optional string parameter as the JS value it holds. -/
def jvalOfOpt : Option JStr → JVal
  | Option.none => JVal.undef
  | Option.some s => JVal.str s

/-- `isAuthRefreshable` (clio/base.ts):
`parameters.authServer ? (parameters.authServer === 'neurohub' || parameters.authServer.startsWith('http')) : false`. -/
def isAuthRefreshable (authServer : Option JStr) : Bool :=
  match authServer with
  | Option.some s =>
      if s ≠ [] then s == S "neurohub" || (S "http").isPrefixOf s else false
  | Option.none => false

/-- `ClioInstance.getTopLevelUrl`: `${baseUrl}/${api || 'clio_toplevel'}`. -/
def getTopLevelUrl (p : ClioParams) : JStr :=
  p.baseUrl ++ S "/" ++ jsToChars (jsOr (jvalOfOpt p.api) (JVal.str (S "clio_toplevel")))

/-- `ClioInstance.getAnnotationEndpoint`: `atlas` for the Atlas kind,
otherwise `annotations`. -/
def getAnnotationEndpoint (p : ClioParams) : JStr :=
  if jsSEq (jvalOfOpt p.kind) (JVal.str (S "Atlas")) then S "atlas" else S "annotations"

/-- `ClioInstance.getAnnotationEntryUrl`:
`${topLevelUrl}/${annotationEndpoint}/${dataset}`. -/
def getAnnotationEntryUrl (p : ClioParams) : JStr :=
  getTopLevelUrl p ++ S "/" ++ getAnnotationEndpoint p ++ S "/" ++ p.dataset

/-- `ClioInstance.getAllAnnotationsUrl`: the entry URL with an optional
`?groups=` filter. -/
def getAllAnnotationsUrl (p : ClioParams) : JStr :=
  getAnnotationEntryUrl p
    ++ (if jsTruthy (jvalOfOpt p.groups) then S "?groups=" ++ jsToChars (jvalOfOpt p.groups) else [])

/-- `ClioInstance.hasPointQueryApi`:
`api === 'clio_toplevel' || kind === 'Atlas'`. -/
def hasPointQueryApi (p : ClioParams) : Bool :=
  jsSEq (jvalOfOpt p.api) (JVal.str (S "clio_toplevel"))
    || jsSEq (jvalOfOpt p.kind) (JVal.str (S "Atlas"))

/-- `ClioInstance.getAnnotationUrl`: position query
`?x=${position[0]}&y=${position[1]}&z=${position[2]}`. -/
def getAnnotationUrlAt (p : ClioParams) (x y z : JStr) : JStr :=
  getAnnotationEntryUrl p ++ S "?x=" ++ x ++ S "&y=" ++ y ++ S "&z=" ++ z

/-- `ClioInstance.getPostAnnotationUrl`: the position-query URL when the
backend supports point queries, otherwise the plain entry URL. -/
def getPostAnnotationUrl (p : ClioParams) (position : JVal) : JStr :=
  if hasPointQueryApi p then
    getAnnotationUrlAt p (jsToChars (jsIndex position 0)) (jsToChars (jsIndex position 1))
      (jsToChars (jsIndex position 2))
  else getAnnotationEntryUrl p

/-- Regex fragment `(-?\d+)` with its captured text. -/
def pSNumCap : JStr → Option (JStr × JStr)
  | '-' :: cs =>
      let r := takeDigits cs
      if r.1 = [] then Option.none else Option.some ('-' :: r.1, r.2)
  | cs =>
      let r := takeDigits cs
      if r.1 = [] then Option.none else Option.some (r.1, r.2)

/-- The regex `/(-?\d+)_(-?\d+)_(-?\d+)/` applied at one position. -/
def tripleCapAt (cs : JStr) : Option (JStr × JStr × JStr) :=
  match pSNumCap cs with
  | Option.none => Option.none
  | Option.some (c1, r1) =>
      match pChar '_' r1 with
      | Option.none => Option.none
      | Option.some r2 =>
          match pSNumCap r2 with
          | Option.none => Option.none
          | Option.some (c2, r3) =>
              match pChar '_' r3 with
              | Option.none => Option.none
              | Option.some r4 =>
                  match pSNumCap r4 with
                  | Option.none => Option.none
                  | Option.some (c3, _) => Option.some (c1, c2, c3)

/-- Unanchored search for `/(-?\d+)_(-?\d+)_(-?\d+)/` (leftmost match, as
JS `String.match`). -/
def findTripleCap : JStr → Option (JStr × JStr × JStr)
  | [] => Option.none
  | c :: cs =>
      match tripleCapAt (c :: cs) with
      | Option.some r => Option.some r
      | Option.none => findTripleCap cs

/-- `ClioInstance.getDeleteAnnotationUrl`: a position query recovered from
the id for point-query backends, otherwise `${entryUrl}/${id}`. -/
def getDeleteAnnotationUrl (p : ClioParams) (id : JStr) : JStr :=
  if hasPointQueryApi p then
    match findTripleCap id with
    | Option.some (x, y, z) => getAnnotationUrlAt p x y z
    | Option.none => getAnnotationEntryUrl p ++ S "/" ++ id
  else getAnnotationEntryUrl p ++ S "/" ++ id

/-- Outcome of the HTTP error handler in `fetchWithFlyEMCredentials`
(flyem/widgets.ts): refresh the token and retry, blindly retry, or
surface the error to the caller. -/
inductive ErrorAction where
  | refresh : ErrorAction
  | retry : ErrorAction
  | surface : ErrorAction
deriving DecidableEq

/-- The error handler of `fetchWithFlyEMCredentials` (flyem/widgets.ts):
on 401/403 it answers `refresh` when the call is token-refreshable; on
504 it answers `retry`; every other status is rethrown (surfaced). -/
def flyemRetryDecision (status : Nat) (tokenRefreshable : Bool) : ErrorAction :=
  if (status = 403 ∨ status = 401) ∧ tokenRefreshable = true then ErrorAction.refresh
  else if status = 504 then ErrorAction.retry
  else ErrorAction.surface

/-- Escape of a character inside a JSON string literal (the quote and
backslash cases that can occur in this layer's data). -/
def jsonEscapeChar (c : Char) : JStr :=
  if c = '"' ∨ c = '\\' then ['\\', c] else [c]

/-- Comma-separated concatenation. -/
def joinComma : List JStr → JStr
  | [] => []
  | [s] => s
  | s :: rest => s ++ ',' :: joinComma rest

/-- Fuel-driven `JSON.stringify` (`none` is the `undefined` result for an
`undefined` argument; `undefined` object members are skipped, `NaN`
serializes as `null`).  The fuel keeps the definition kernel-reducible;
the entries of this layer have bounded depth. -/
def jsonStringifyF : Nat → JVal → Option JStr
  | 0, _ => Option.none
  | Nat.succ fuel, v =>
      match v with
      | JVal.undef => Option.none
      | JVal.null => Option.some (S "null")
      | JVal.bool b => Option.some (if b then S "true" else S "false")
      | JVal.num (Option.some i) => Option.some (intToChars i)
      | JVal.num Option.none => Option.some (S "null")
      | JVal.str s =>
          Option.some ('"' :: (s.flatMap jsonEscapeChar) ++ ['"'])
      | JVal.arr xs =>
          Option.some ('[' :: joinComma (xs.map (fun x =>
            (jsonStringifyF fuel x).getD (S "null"))) ++ [']'])
      | JVal.obj fs =>
          Option.some (Char.ofNat 123 :: joinComma ((fs.filterMap (fun kv =>
            match jsonStringifyF fuel kv.2 with
            | Option.none => Option.none
            | Option.some sv =>
                Option.some ('"' :: (kv.1.flatMap jsonEscapeChar) ++ ['"'] ++ ':' :: sv)))) ++ [Char.ofNat 125])

/-- A network request issued by an operation. -/
inductive NetCall where
  | get : JStr → NetCall
  | post : JStr → JStr → NetCall
  | del : JStr → NetCall
deriving DecidableEq

/-- `ClioAnnotationSource.getEncoder` for an annotation object: helper
table lookup by `annotation.type` (`undefined` when the type is absent or
not a table key). -/
def getEncoderOfAnn (p : ClioParams) (ann : JVal) : Option Helper :=
  match jvGet ann (S "type") with
  | JVal.num (Option.some i) =>
      if 0 ≤ i then makeEncoders p.api p.kind i.toNat else Option.none
  | _ => Option.none

/-- `ClioAnnotationSource.encodeAnnotation`: `null` without an encoder. -/
def encodeAnnotationOp (p : ClioParams) (ann : JVal) : Option JVal :=
  match getEncoderOfAnn p ann with
  | Option.some h => helperEncode h ann
  | Option.none => Option.none

/-- `ClioAnnotationGeometryChunkSource.decodeAnnotation`: guarded by
`type !== null`; a missing helper for a valid type throws a `TypeError`
(`this.encoder[type].decode` on `undefined`). -/
def decodeAnnotationGeomE (p : ClioParams) (key : JStr) (entry : JVal) :
    Except JStr (Option JVal) :=
  match typeOfAnnotationId key with
  | Option.some t =>
      match makeEncoders p.api p.kind t with
      | Option.some h => Except.ok (helperDecode h key entry)
      | Option.none => Except.error (S "TypeError")
  | Option.none => Except.ok Option.none

/-- `ClioAnnotationSource.decodeAnnotation`: guarded by the truthiness
check `if (type)` — for a Point id the type value is `0` (falsy), so the
guard fails and the result is `null` exactly as for an invalid id. -/
def decodeAnnotationMetaE (p : ClioParams) (key : JStr) (entry : JVal) :
    Except JStr (Option JVal) :=
  match typeOfAnnotationId key with
  | Option.some t =>
      if t ≠ 0 then
        match makeEncoders p.api p.kind t with
        | Option.some h => Except.ok (helperDecode h key entry)
        | Option.none => Except.error (S "TypeError")
      else Except.ok Option.none
  | Option.none => Except.ok Option.none

/-- `ClioAnnotationSource.uploadable` applied to an annotation object. -/
def uploadableAnn (p : ClioParams) (ann : JVal) : Except JStr Bool :=
  match getEncoderOfAnn p ann with
  | Option.some h => helperUploadable h (Option.some ann)
  | Option.none => Except.ok false

/-- `ClioAnnotationSource.uploadable` applied to an id string: the cached
raw entry is decoded first and the helper's policy is applied to the
decode result. -/
def uploadableId (p : ClioParams) (st : Store) (id : JStr) : Except JStr Bool :=
  match typeOfAnnotationId id with
  | Option.some t =>
      match makeEncoders p.api p.kind t with
      | Option.some h => helperUploadable h (helperDecode h id (storeGetValue st id))
      | Option.none => Except.ok false
  | Option.none => Except.ok false

/-- Outcome of `ClioAnnotationSource.updateAnnotation`: a rejection with
an error message, a POST issued to the backend (whose response resolves
the operation), or a local resolution with `getAnnotationKey`. -/
inductive UpdateOutcome where
  | failure : JStr → UpdateOutcome
  | posted : JStr → JStr → UpdateOutcome
  | localKey : JVal → UpdateOutcome

/-- `ClioAnnotationSource.updateAnnotation`: rejects without a session
user; stamps the session user onto the annotation (through the facade,
into `ext.user`); rejects when the encoder yields `null`; on
`overwrite = false` rejects when the cache already holds a truthy entry
under the derived id; otherwise stores the encoded entry in the cache
under the derived id and either POSTs it (when uploadable) or resolves
locally with the annotation key.  The result carries the outcome, the
cache afterwards, and the annotation object after the operation's
mutations (the family-A encoder's `presentation` getter also rewrites the
derived `description` field, which no later read of this operation
depends on; the returned annotation tracks the user stamp). -/
def updateAnnotationOp (p : ClioParams) (st : Store) (ann : JVal) (overwrite : Bool) :
    UpdateOutcome × Store × JVal :=
  if ¬jsTruthy (jvalOfOpt p.user) then
    (UpdateOutcome.failure (S "Cannot upload an annotation without a user"), st, ann)
  else
    let ann1 := setExtField ann (S "user") (jvalOfOpt p.user)
    match encodeAnnotationOp p ann1 with
    | Option.none => (UpdateOutcome.failure (S "Unable to encode the annotation"), st, ann1)
    | Option.some encoded =>
        if ¬overwrite ∧ jsTruthy (storeGetValue st (getAnnotationId ann1 JVal.undef)) then
          (UpdateOutcome.failure (S "Cannot overwrite existing annotation"), st, ann1)
        else
          let value := (jsonStringifyF 64 encoded).getD []
          let st1 := storeUpdate st (getAnnotationId ann1 JVal.undef) encoded
          match uploadableAnn p ann1 with
          | Except.error e => (UpdateOutcome.failure e, st1, ann1)
          | Except.ok true =>
              (UpdateOutcome.posted (getPostAnnotationUrl p (jvGet ann1 (S "point"))) value,
                st1, ann1)
          | Except.ok false =>
              (UpdateOutcome.localKey (getAnnotationKey ann1 JVal.undef), st1, ann1)

/-- The network requests an `updateAnnotation` outcome issues. -/
def updateNetCalls (o : UpdateOutcome) : List NetCall :=
  match o with
  | UpdateOutcome.posted url payload => [NetCall.post url payload]
  | _ => []

/-- Outcome of `ClioAnnotationSource.addAnnotation`: a rejection (the
`catch` rewraps the reason, prefixing `Error: ` via `new Error(e)`), a
POST awaiting the server response (which then supplies the key), or the
id resolved from a locally produced key. -/
inductive AddOutcome where
  | failure : JStr → AddOutcome
  | postedAwait : JStr → JStr → AddOutcome
  | resolvedId : JStr → AddOutcome
deriving DecidableEq

/-- `ClioAnnotationSource.addAnnotation` / `add`: `updateAnnotation` with
`overwrite = false`, then the resolved value is turned into a key (a
nonempty string response is the key itself; otherwise `response.key` is
read, throwing on `undefined`) and into `getAnnotationId(annotation, key)`. -/
def addAnnotationOp (p : ClioParams) (st : Store) (ann : JVal) : AddOutcome × Store :=
  match updateAnnotationOp p st ann false with
  | (UpdateOutcome.failure e, st', _) => (AddOutcome.failure (S "Error: " ++ e), st')
  | (UpdateOutcome.posted url payload, st', _) => (AddOutcome.postedAwait url payload, st')
  | (UpdateOutcome.localKey r, st', ann1) =>
      match r with
      | JVal.str s =>
          if s.length > 0 then (AddOutcome.resolvedId (getAnnotationId ann1 (JVal.str s)), st')
          else
            (AddOutcome.resolvedId (getAnnotationId ann1 (jvGet r (S "key"))), st')
      | _ =>
          match jsGetE r (S "key") with
          | Except.error _ => (AddOutcome.failure (S "Error: TypeError"), st')
          | Except.ok k => (AddOutcome.resolvedId (getAnnotationId ann1 k), st')

/-- Outcome of `ClioAnnotationSource.deleteAnnotation`: a rejection, a
DELETE issued to the backend (the cache entry is removed once the server
confirms), or a purely local removal. -/
inductive DeleteOutcome where
  | failure : JStr → DeleteOutcome
  | requested : JStr → DeleteOutcome
  | localResolve : DeleteOutcome
deriving DecidableEq

/-- `ClioAnnotationSource.deleteAnnotation`: on the uploadable path the
cached entry's recorded `user` must match the session user (else a
permission rejection before any network call), then a DELETE is issued
and the entry is removed after confirmation (the returned store is the
post-confirmation state); on the non-uploadable path the entry is removed
locally with no network call. -/
def deleteAnnotationOp (p : ClioParams) (st : Store) (id : JStr) :
    DeleteOutcome × Store :=
  match uploadableId p st id with
  | Except.error e => (DeleteOutcome.failure e, st)
  | Except.ok true =>
      let cached := storeGetValue st id
      if jsTruthy cached ∧ jsTruthy (jvGet cached (S "user"))
          ∧ ¬(jsSEq (jvGet cached (S "user")) (jvalOfOpt p.user) = true) then
        (DeleteOutcome.failure (S "Unable to delete annotation owned by "
          ++ jsToChars (jvGet cached (S "user")) ++ S "."), st)
      else
        let key := match parseAnnotationId id with
          | Option.some kv => kv.1
          | Option.none => id
        (DeleteOutcome.requested (getDeleteAnnotationUrl p key), storeRemove st id)
  | Except.ok false => (DeleteOutcome.localResolve, storeRemove st id)

/-- The network requests a `deleteAnnotation` outcome issues. -/
def deleteNetCalls (o : DeleteOutcome) : List NetCall :=
  match o with
  | DeleteOutcome.requested url => [NetCall.del url]
  | _ => []

/-- `ClioAnnotationSource.delete`: invalid ids resolve as a silent no-op;
otherwise `deleteAnnotation` runs (its synchronous throw is converted to
a rejected promise by the `try`/`catch`). -/
def deleteOp (p : ClioParams) (st : Store) (id : JStr) : DeleteOutcome × Store :=
  if isAnnotationIdValid id then deleteAnnotationOp p st id
  else (DeleteOutcome.localResolve, st)

/-- `ClioAnnotationSource.requestMetadata`: for each valid id class the
raw cached entry is returned (`undefined` on a miss); an invalid id
throws. -/
def requestMetadataOp (st : Store) (id : JStr) : Except JStr JVal :=
  match typeOfAnnotationId id with
  | Option.some t =>
      if t = AT_POINT then Except.ok (storeGetValue st id)
      else if t = AT_LINE then Except.ok (storeGetValue st id)
      else if t = AT_SPHERE then Except.ok (storeGetValue st id)
      else Except.error (S "Invalid annotation ID for DVID: " ++ id)
  | Option.none => Except.error (S "Invalid annotation ID for DVID: " ++ id)

/-- `ClioAnnotationSource.downloadMetadata`: a truthy cached entry is
decoded via the (truthiness-guarded) metadata decoder, a miss yields the
`null` annotation; no network request is involved. -/
def downloadMetadataOp (p : ClioParams) (st : Store) (id : JStr) :
    Except JStr (Option JVal) := do
  let response ← requestMetadataOp st id
  if jsTruthy response then decodeAnnotationMetaE p id response
  else pure Option.none

/-- Result of the bulk parse: the cache after all inserts, the
annotations handed to the serializer (in iteration order, the serialized
chunk output), and the annotations published through the child-added
signal. -/
structure ParseResult where
  store : Store
  serialized : List JVal
  signals : List JVal

/-- The `source` provenance tag given to the annotation at position
`index` of a batch ending at `lastIndex`. -/
def sourceTag (index lastIndex : Nat) : JVal :=
  JVal.str (if index = lastIndex then S "downloaded:last"
    else S "downloaded:" ++ natToChars index ++ S "/" ++ natToChars lastIndex)

/-- One iteration of the `Object.keys(responses).forEach` body in
`parseAnnotations` (clio/backend.ts): a truthy entry lacking a `Kind`
discriminant receives the collection's configured kind; then
`parseSingleAnnotation(response.key || key, ...)` runs — the `.key` read
throws a `TypeError` on a `null` entry value; a truthy entry is decoded
inside `try`/`catch` (decode exceptions are logged and skipped), and a
successful decode is stamped with its `source` tag, stored in the cache
under its derived id, serialized, and (when requested) signalled. -/
def processEntry (p : ClioParams) (emitting : Bool) (index lastIndex : Nat)
    (acc : ParseResult) (key : JStr) (response : JVal) : Except JStr ParseResult := do
  let response1 ←
    if jsTruthy response then do
      let hasKind ← jsHasE response (S "Kind")
      pure (if ¬hasKind then jvSet response (S "Kind") (jvalOfOpt p.kind) else response)
    else pure response
  let rkey ← jsGetE response1 (S "key")
  let decodeKey := if jsTruthy rkey then jsToChars rkey else key
  if jsTruthy response1 then
    match decodeAnnotationGeomE p decodeKey response1 with
    | Except.error _ => pure acc
    | Except.ok Option.none => pure acc
    | Except.ok (Option.some ann0) =>
        let ann := jvSet ann0 (S "source") (sourceTag index lastIndex)
        pure (ParseResult.mk
          (storeAdd acc.store (getAnnotationId ann JVal.undef) response1)
          (acc.serialized ++ [ann])
          (if emitting then acc.signals ++ [ann] else acc.signals))
  else pure acc

/-- The indexed fold over the response's key/entry pairs. -/
def parseEntriesAux (p : ClioParams) (emitting : Bool) (lastIndex : Nat) :
    Nat → ParseResult → List (JStr × JVal) → Except JStr ParseResult
  | _, acc, [] => pure acc
  | index, acc, (k, v) :: rest => do
      let acc1 ← processEntry p emitting index lastIndex acc k v
      parseEntriesAux p emitting lastIndex (index + 1) acc1 rest

/-- `parseAnnotations` (clio/backend.ts): iterates the key/entry pairs of
a truthy response object in key order (a falsy response yields the empty
chunk).  The inserts go into the memoized per-endpoint store passed as
`st0`. -/
def parseAnnotations (p : ClioParams) (st0 : Store) (responses : JVal)
    (emitting : Bool) : Except JStr ParseResult :=
  if jsTruthy responses then
    let fields := match responses with
      | JVal.obj f => f
      | _ => []
    parseEntriesAux p emitting (fields.length - 1) 0 (ParseResult.mk st0 [] []) fields
  else pure (ParseResult.mk st0 [] [])

/-- `ClioAnnotationGeometryChunkSource.download`: clears the endpoint's
cache, issues the single GET against the all-annotations URL (its JSON
result is the `responses` argument), and parses with add-signal emission;
the initial cache contents `st0` are discarded by the `clear()`. -/
def downloadOp (p : ClioParams) (st0 : Store) (responses : JVal) :
    Except JStr ParseResult × List NetCall :=
  let _ := st0
  (parseAnnotations p [] responses true, [NetCall.get (getAllAnnotationsUrl p)])

/-- An integer JS number value. -/
def jnum (i : Int) : JVal := JVal.num (Option.some i)

/-- A 3-vector of integer coordinates (a `Float32Array` holding exact
integers). -/
def jvec3 (x y z : Int) : JVal := JVal.arr [jnum x, jnum y, jnum z]

/-- A point annotation object as this layer builds them: geometry, kind,
`prop`/`ext` maps, no server-assigned key. -/
def mkPointAnn (x y z : Int) (ext prop : List (JStr × JVal)) (kind : JStr) : JVal :=
  JVal.obj [
    (S "id", JVal.str []),
    (S "type", jnum ((AT_POINT : Nat) : Int)),
    (S "point", jvec3 x y z),
    (S "kind", JVal.str kind),
    (S "prop", JVal.obj prop),
    (S "ext", JVal.obj ext),
    (S "properties", JVal.arr [])]

/-- A line annotation object (two endpoints). -/
def mkLineAnn (x y z x2 y2 z2 : Int) (ext prop : List (JStr × JVal)) (kind : JStr) : JVal :=
  JVal.obj [
    (S "id", JVal.str []),
    (S "type", jnum ((AT_LINE : Nat) : Int)),
    (S "pointA", jvec3 x y z),
    (S "pointB", jvec3 x2 y2 z2),
    (S "kind", JVal.str kind),
    (S "prop", JVal.obj prop),
    (S "ext", JVal.obj ext),
    (S "properties", JVal.arr [])]

/-- A sphere annotation object (two endpoints). -/
def mkSphereAnn (x y z x2 y2 z2 : Int) (ext prop : List (JStr × JVal)) (kind : JStr) : JVal :=
  JVal.obj [
    (S "id", JVal.str []),
    (S "type", jnum ((AT_SPHERE : Nat) : Int)),
    (S "pointA", jvec3 x y z),
    (S "pointB", jvec3 x2 y2 z2),
    (S "kind", JVal.str kind),
    (S "prop", JVal.obj prop),
    (S "ext", JVal.obj ext),
    (S "properties", JVal.arr [])]

/-- Session parameters for a family-B (v2) endpoint without a group
filter, user `bob`. -/
def paramsV2 : ClioParams :=
  ClioParams.mk (S "http://example.com") (S "ds") (Option.some (S "v2"))
    Option.none (Option.some (S "bob")) Option.none Option.none

/-- A family-B point entry at (1,2,3) owned by `bob`. -/
def v2PointEntryBob : JVal := JVal.obj [
  (S "kind", JVal.str (S "point")),
  (S "pos", JVal.arr [jnum 1, jnum 2, jnum 3]),
  (S "user", JVal.str (S "bob"))]

/-- A family-B line-segment entry (1,2,3)-(4,5,6) owned by `bob`. -/
def v2LineEntryBob : JVal := JVal.obj [
  (S "kind", JVal.str (S "lineseg")),
  (S "pos", JVal.arr [jnum 1, jnum 2, jnum 3, jnum 4, jnum 5, jnum 6]),
  (S "user", JVal.str (S "bob"))]

/-- A cache holding a point entry and a line entry under their ids. -/
def metadataStore : Store :=
  [(S "Pt1_2_3[user:bob]", v2PointEntryBob),
   (S "Ln1_2_3_4_5_6[user:bob]", v2LineEntryBob)]

/-- Session parameters for a family-B endpoint with no authenticated
user. -/
def paramsV2NoUser : ClioParams :=
  ClioParams.mk (S "http://example.com") (S "ds") (Option.some (S "v2"))
    Option.none Option.none Option.none Option.none

/-- Session parameters for a v2 Atlas endpoint with session user `u2`. -/
def paramsAtlasU2 : ClioParams :=
  ClioParams.mk (S "http://example.com") (S "ds") (Option.some (S "v2"))
    (Option.some (S "Atlas")) (Option.some (S "u2")) Option.none Option.none

/-- An Atlas point entry owned by `u1` with no title (not uploadable). -/
def atlasEntryU1NoTitle : JVal := JVal.obj [
  (S "kind", JVal.str (S "point")),
  (S "pos", JVal.arr [jnum 1, jnum 2, jnum 3]),
  (S "user", JVal.str (S "u1"))]

/-- An Atlas point entry owned by `u1` carrying a title (uploadable). -/
def atlasEntryU1Titled : JVal := JVal.obj [
  (S "kind", JVal.str (S "point")),
  (S "pos", JVal.arr [jnum 1, jnum 2, jnum 3]),
  (S "title", JVal.str (S "T")),
  (S "user", JVal.str (S "u1"))]

/-- A cache holding the untitled `u1` entry under its derived id. -/
def atlasStoreNoTitle : Store := [(S "Pt1_2_3[user:u1]", atlasEntryU1NoTitle)]

/-- A cache holding the titled `u1` entry under its derived id. -/
def atlasStoreTitled : Store := [(S "Pt1_2_3[user:u1]", atlasEntryU1Titled)]

/-- An id string of the bare shape form `x_y_z-x2_y2_z2-<word>` with
integer coordinates (the claim's input family). -/
def bareShapeId (x y z x2 y2 z2 : Int) (word : JStr) : JStr :=
  intToChars x ++ '_' :: (intToChars y ++ '_' :: (intToChars z
    ++ '-' :: (intToChars x2 ++ '_' :: (intToChars y2 ++ '_' :: (intToChars z2
    ++ '-' :: word)))))

/-- The bare `x_y_z` position key of family A, as a key string built from
integer coordinates. -/
def bareKey3 (x y z : Int) : JStr :=
  intToChars x ++ '_' :: (intToChars y ++ '_' :: intToChars z)

/-- The `ext` map of a fully specified annotation: authoring user, title,
description and verification flag. -/
def c3Ext (u : JStr) : List (JStr × JVal) :=
  [(S "user", JVal.str u), (S "title", JVal.str (S "T")),
   (S "description", JVal.str (S "D")), (S "verified", JVal.bool true)]

/-- The `prop` map of a fully specified annotation. -/
def c3Prop : List (JStr × JVal) := [(S "comment", JVal.str (S "c"))]

/-- A fully specified point annotation with a user set. -/
def c3Point (x y z : Int) (u : JStr) : JVal := mkPointAnn x y z (c3Ext u) c3Prop (S "Note")

/-- A fully specified line annotation with a user set. -/
def c3Line (x y z x2 y2 z2 : Int) (u : JStr) : JVal :=
  mkLineAnn x y z x2 y2 z2 (c3Ext u) c3Prop (S "Note")

/-- A fully specified sphere annotation with a user set. -/
def c3Sphere (x y z x2 y2 z2 : Int) (u : JStr) : JVal :=
  mkSphereAnn x y z x2 y2 z2 (c3Ext u) c3Prop (S "Note")

/-- The derived id of the annotation reconstructed by decoding the
encoder's output under the given key (`none` when encode or decode
fails). -/
def roundTripId (enc : JVal → Option JVal) (dec : JStr → JVal → Option JVal)
    (key : JStr) (a : JVal) : Option JStr :=
  match enc a with
  | Option.some e => (dec key e).map (fun d => getAnnotationId d JVal.undef)
  | Option.none => Option.none

/-- The `Kind`-defaulting step of the bulk parse: a truthy object entry
lacking a `Kind` field receives the collection's configured kind. -/
def defaultedEntry (p : ClioParams) (e : JVal) : JVal :=
  match e with
  | JVal.obj f =>
      if ¬objHas f (S "Kind") then JVal.obj (objSet f (S "Kind") (jvalOfOpt p.kind)) else e
  | _ => e

/-- The decode key of a bulk entry: `response.key || key`. -/
def decodeKeyOf (key : JStr) (e1 : JVal) : JStr :=
  if jsTruthy (jvGet e1 (S "key")) then jsToChars (jvGet e1 (S "key")) else key

/-- The decode outcome for one truthy object entry of a bulk response
(`none` when the entry is skipped: decode failure, decode exception, or
an invalid key). -/
def decodeOfEntry (p : ClioParams) (key : JStr) (e : JVal) : Option JVal :=
  match decodeAnnotationGeomE p (decodeKeyOf key (defaultedEntry p e)) (defaultedEntry p e) with
  | Except.ok (Option.some a) => Option.some a
  | _ => Option.none

/-- The cache contents produced by a bulk parse: each successfully
decoded entry is stored under its derived id (last write wins). -/
def c7FoldFrom (p : ClioParams) (st : Store) (fields : List (JStr × JVal)) : Store :=
  fields.foldl (fun st kv =>
    match decodeOfEntry p kv.1 kv.2 with
    | Option.some a => storeAdd st (getAnnotationId a JVal.undef) (defaultedEntry p kv.2)
    | Option.none => st) st

/-- The derived ids of the successfully decoded entries, in batch
order. -/
def successIds (p : ClioParams) (fields : List (JStr × JVal)) : List JStr :=
  fields.filterMap (fun kv => (decodeOfEntry p kv.1 kv.2).map
    (fun a => getAnnotationId a JVal.undef))

/-- The accumulator update performed by `processEntry` on a truthy
object entry. -/
def processedResult (p : ClioParams) (emitting : Bool) (index lastIndex : Nat)
    (acc : ParseResult) (k : JStr) (f : List (JStr × JVal)) : ParseResult :=
  match decodeOfEntry p k (JVal.obj f) with
  | Option.some a0 =>
      ParseResult.mk
        (storeAdd acc.store
          (getAnnotationId (jvSet a0 (S "source") (sourceTag index lastIndex)) JVal.undef)
          (defaultedEntry p (JVal.obj f)))
        (acc.serialized ++ [jvSet a0 (S "source") (sourceTag index lastIndex)])
        (if emitting then acc.signals ++ [jvSet a0 (S "source") (sourceTag index lastIndex)]
         else acc.signals)
  | Option.none => acc

/-- A decodable family-B point entry owned by `u`. -/
def c7GoodEntryA : JVal := JVal.obj [
  (S "kind", JVal.str (S "point")),
  (S "pos", JVal.arr [jnum 1, jnum 2, jnum 3]),
  (S "user", JVal.str (S "u"))]

/-- A family-B point entry whose `pos` fails to parse. -/
def c7BadEntry : JVal := JVal.obj [
  (S "kind", JVal.str (S "point")),
  (S "pos", JVal.str (S "junk"))]

/-- A decodable family-B point entry owned by `w`. -/
def c7GoodEntryB : JVal := JVal.obj [
  (S "kind", JVal.str (S "point")),
  (S "pos", JVal.arr [jnum 4, jnum 4, jnum 4]),
  (S "user", JVal.str (S "w"))]

/-- A batch of three entries of which the second fails to decode. -/
def c7Fields : List (JStr × JVal) :=
  [(S "1_2_3", c7GoodEntryA), (S "bad", c7BadEntry), (S "4_4_4", c7GoodEntryB)]

/-- A decodable entry carrying an explicit `key` field (`Pt1_2_3`), so
its derived id ignores the response map key. -/
def c7KeyedEntry (x y z : Int) : JVal := JVal.obj [
  (S "key", JVal.str (S "Pt1_2_3")),
  (S "kind", JVal.str (S "point")),
  (S "pos", JVal.arr [jnum x, jnum y, jnum z]),
  (S "user", JVal.str (S "u"))]

/-- A response containing a `null` entry value next to a decodable
entry. -/
def c7RespCrash : JVal := JVal.obj [(S "a", JVal.null), (S "1_2_3", c7GoodEntryA)]

/-- Two entries with distinct map keys whose `key` fields coincide, so
their derived ids collide. -/
def c7CollFields : List (JStr × JVal) :=
  [(S "a", c7KeyedEntry 1 2 3), (S "b", c7KeyedEntry 7 8 9)]

/-- Claim C4 (code_bug): `typeOf(deriveId(a))` should recover the
geometric discriminant for all integer coordinates, possibly negative.
It does for points (any signs) and for lines/spheres with nonnegative
`pointB`, but the `Ln`/`Sp` regexes in `typeOfAnnotationId` read
`_?\d+` instead of `_-?\d+` before the fourth coordinate, so the derived
id of the line (1,2,3)-(-4,5,6) with user `u` — `Ln1_2_3_-4_5_6[user:u]`
— matches no pattern and is classified Invalid (`null`) instead of Line. -/
theorem C4_typeOf_deriveId_fails_on_negative_pointB :
    getAnnotationId (mkLineAnn 1 2 3 (-4) 5 6 [(S "user", JVal.str (S "u"))] [] (S "Note"))
        JVal.undef = S "Ln1_2_3_-4_5_6[user:u]"
    ∧ typeOfAnnotationId (S "Ln1_2_3_-4_5_6[user:u]") = Option.none
    ∧ typeOfAnnotationId (getAnnotationId
        (mkSphereAnn 1 2 3 (-4) 5 6 [(S "user", JVal.str (S "u"))] [] (S "Note"))
        JVal.undef) = Option.none
    ∧ typeOfAnnotationId (getAnnotationId
        (mkLineAnn 1 2 3 4 5 6 [(S "user", JVal.str (S "u"))] [] (S "Note"))
        JVal.undef) = Option.some AT_LINE
    ∧ typeOfAnnotationId (getAnnotationId
        (mkSphereAnn 1 2 3 4 5 6 [(S "user", JVal.str (S "u"))] [] (S "Note"))
        JVal.undef) = Option.some AT_SPHERE
    ∧ typeOfAnnotationId (getAnnotationId
        (mkPointAnn (-1) (-2) (-3) [(S "user", JVal.str (S "u"))] [] (S "Note"))
        JVal.undef) = Option.some AT_POINT := by
  decide

/-- Claim C9 (counterexample): a bare `x_y_z-x2_y2_z2-Line` id is
classified Point, not Line — the unanchored Point pattern
`/^-?\d+_-?\d+_-?\d+[\[]?/` matches its `x_y_z` prefix before the Line
patterns are tried; likewise the `-Sphere` form. -/
theorem C9_bare_line_id_classifies_as_point :
    typeOfAnnotationId (S "1_2_3-4_5_6-Line") = Option.some AT_POINT
    ∧ Option.some AT_POINT ≠ Option.some AT_LINE
    ∧ typeOfAnnotationId (S "1_2_3-4_5_6-Sphere") = Option.some AT_POINT := by
  decide

/-- Claim C6 (code_bug): the metadata fetch resolves from the cache with
no network call, and a miss yields the null annotation; but for a Point
id with a cached, decodable entry the result is `null` rather than the
decoded annotation, because `ClioAnnotationSource.decodeAnnotation`
guards with the truthiness test `if (type)` and `AnnotationType.POINT`
is `0` (the sibling geometry-chunk decoder guards with
`type !== null` and decodes the same entry successfully).  Line ids
decode as the claim states. -/
theorem C6_point_metadata_fetch_yields_null :
    downloadMetadataOp paramsV2 metadataStore (S "Pt1_2_3[user:bob]")
        = Except.ok Option.none
    ∧ (helperDecode Helper.v2Point (S "Pt1_2_3[user:bob]") v2PointEntryBob).isSome = true
    ∧ downloadMetadataOp paramsV2 metadataStore (S "Ln1_2_3_4_5_6[user:bob]")
        = Except.ok (helperDecode Helper.v2Line (S "Ln1_2_3_4_5_6[user:bob]") v2LineEntryBob)
    ∧ (helperDecode Helper.v2Line (S "Ln1_2_3_4_5_6[user:bob]") v2LineEntryBob).isSome = true
    ∧ downloadMetadataOp paramsV2 metadataStore (S "Pt9_9_9[user:bob]")
        = Except.ok Option.none :=
  ⟨rfl, rfl, rfl, rfl, rfl⟩

/-- Claim C5: through the credentialed client, HTTP 401/403 leads to a
token-refresh-and-retry exactly when the call is marked refreshable;
refreshability holds exactly for the `neurohub` hub realm and HTTP(S)
realms, never for a `token:` literal realm or an absent realm; HTTP 504
retries unconditionally; every other error status is surfaced. -/
theorem C5_retry_refresh_policy :
    (∀ b : Bool, flyemRetryDecision 504 b = ErrorAction.retry)
    ∧ (∀ (s : Nat) (b : Bool), s ≠ 401 → s ≠ 403 → s ≠ 504 →
        flyemRetryDecision s b = ErrorAction.surface)
    ∧ (∀ s : Nat, s = 401 ∨ s = 403 → ∀ r : Option JStr,
        (flyemRetryDecision s (isAuthRefreshable r) = ErrorAction.refresh ↔
          isAuthRefreshable r = true)
        ∧ (isAuthRefreshable r = false →
            flyemRetryDecision s (isAuthRefreshable r) = ErrorAction.surface))
    ∧ isAuthRefreshable Option.none = false
    ∧ isAuthRefreshable (Option.some (S "neurohub")) = true
    ∧ (∀ rest : JStr, isAuthRefreshable (Option.some (S "http://" ++ rest)) = true)
    ∧ (∀ rest : JStr, isAuthRefreshable (Option.some (S "https://" ++ rest)) = true)
    ∧ (∀ rest : JStr, isAuthRefreshable (Option.some (S "token:" ++ rest)) = false) := by
  refine ⟨?_, ?_, ?_, rfl, rfl, ?_, ?_, ?_⟩
  · intro b
    simp [flyemRetryDecision]
  · intro s b h1 h2 h3
    simp [flyemRetryDecision, h1, h2, h3]
  · intro s hs r
    rcases hs with h | h <;> subst h <;>
      cases hb : isAuthRefreshable r <;> simp [flyemRetryDecision, hb]
  · intro rest
    rfl
  · intro rest
    rfl
  · intro rest
    rfl

/-- Witness for C5 at concrete inputs: status 500 surfaces; 401 with a
`token:` realm surfaces; 401 with an HTTP realm refreshes; 504 retries. -/
theorem C5_retry_refresh_policy_witness :
    flyemRetryDecision 500 true = ErrorAction.surface
    ∧ flyemRetryDecision 401 (isAuthRefreshable (Option.some (S "token:abc")))
        = ErrorAction.surface
    ∧ flyemRetryDecision 401 (isAuthRefreshable (Option.some (S "http://auth.example")))
        = ErrorAction.refresh
    ∧ flyemRetryDecision 504 false = ErrorAction.retry := by
  refine ⟨?_, ?_, ?_, ?_⟩
  · exact C5_retry_refresh_policy.2.1 500 true (by decide) (by decide) (by decide)
  · exact (C5_retry_refresh_policy.2.2.1 401 (Or.inl rfl) (Option.some (S "token:abc"))).2
      (C5_retry_refresh_policy.2.2.2.2.2.2.2 (S "abc"))
  · exact (C5_retry_refresh_policy.2.2.1 401 (Or.inl rfl)
      (Option.some (S "http://auth.example"))).1.mpr
      (by
        have h := C5_retry_refresh_policy.2.2.2.2.2.1 (S "auth.example")
        exact h)
  · exact C5_retry_refresh_policy.1 false

/-- The `uploadable` policy never throws on an annotation object (only
the Atlas helper can throw, and only over the `null` of a failed decode). -/
theorem helperUploadable_some_ok (h : Helper) (a : JVal) :
    ∃ b : Bool, helperUploadable h (Option.some a) = Except.ok b := by
  cases h
  case v2Atlas =>
    cases hc : clioTitle a <;> simp [helperUploadable, hc]
  all_goals exact ⟨true, rfl⟩

/-- `ClioAnnotationSource.uploadable` on an annotation object always
resolves to a boolean. -/
theorem uploadableAnn_ok (p : ClioParams) (a : JVal) :
    ∃ b : Bool, uploadableAnn p a = Except.ok b := by
  unfold uploadableAnn
  cases he : getEncoderOfAnn p a
  · exact ⟨false, rfl⟩
  · exact helperUploadable_some_ok _ a

/-- Claim C1: with a session user present and an encodable annotation, an
Add (`updateAnnotation` with `overwrite = false`) against a derived id
already cached rejects with the conflict error, leaves the cache
untouched, and issues no network call; when the derived id is absent from
the cache the conflict branch is not taken.  The derived id is that of
the annotation after the session user has been stamped onto it (the
operation stamps before deriving). -/
theorem C1_conflict_law (p : ClioParams) (st : Store) (ann : JVal)
    (hu : jsTruthy (jvalOfOpt p.user) = true)
    (henc : (encodeAnnotationOp p (setExtField ann (S "user") (jvalOfOpt p.user))).isSome = true) :
    (jsTruthy (storeGetValue st
        (getAnnotationId (setExtField ann (S "user") (jvalOfOpt p.user)) JVal.undef)) = true →
      updateAnnotationOp p st ann false =
        (UpdateOutcome.failure (S "Cannot overwrite existing annotation"), st,
          setExtField ann (S "user") (jvalOfOpt p.user))
      ∧ updateNetCalls (updateAnnotationOp p st ann false).1 = []
      ∧ (addAnnotationOp p st ann).1 =
          AddOutcome.failure (S "Error: Cannot overwrite existing annotation")
      ∧ (addAnnotationOp p st ann).2 = st)
    ∧ (jsTruthy (storeGetValue st
        (getAnnotationId (setExtField ann (S "user") (jvalOfOpt p.user)) JVal.undef)) = false →
      (updateAnnotationOp p st ann false).1 ≠
        UpdateOutcome.failure (S "Cannot overwrite existing annotation")) := by
  obtain ⟨e, he⟩ := Option.isSome_iff_exists.mp henc
  constructor
  · intro hcf
    have h1 : updateAnnotationOp p st ann false =
        (UpdateOutcome.failure (S "Cannot overwrite existing annotation"), st,
          setExtField ann (S "user") (jvalOfOpt p.user)) := by
      simp [updateAnnotationOp, hu, he, hcf]
    have h2 : S "Error: " ++ S "Cannot overwrite existing annotation"
        = S "Error: Cannot overwrite existing annotation" := by decide
    refine ⟨h1, ?_, ?_, ?_⟩
    · rw [h1]
      rfl
    · simp [addAnnotationOp, h1, h2]
    · simp [addAnnotationOp, h1]
  · intro hcf
    obtain ⟨b, hb⟩ := uploadableAnn_ok p (setExtField ann (S "user") (jvalOfOpt p.user))
    cases b <;>
      simp [updateAnnotationOp, hu, he, hcf, hb]

/-- Witness for C1: with user `bob` and a cache already holding the
derived id `Pt1_2_3[user:bob]`, a second Add rejects with the conflict
error, caches and network are untouched; with an empty cache the conflict
branch is not taken. -/
theorem C1_conflict_law_witness :
    (updateAnnotationOp paramsV2 metadataStore
        (mkPointAnn 1 2 3 [] [] (S "Note")) false =
      (UpdateOutcome.failure (S "Cannot overwrite existing annotation"), metadataStore,
        setExtField (mkPointAnn 1 2 3 [] [] (S "Note")) (S "user") (jvalOfOpt paramsV2.user)))
    ∧ ((updateAnnotationOp paramsV2 [] (mkPointAnn 1 2 3 [] [] (S "Note")) false).1 ≠
        UpdateOutcome.failure (S "Cannot overwrite existing annotation")) := by
  constructor
  · exact ((C1_conflict_law paramsV2 metadataStore (mkPointAnn 1 2 3 [] [] (S "Note"))
      rfl rfl).1 rfl).1
  · exact (C1_conflict_law paramsV2 [] (mkPointAnn 1 2 3 [] [] (S "Note"))
      rfl rfl).2 rfl

/-- Claim C8: without a session user, Add/Update reject immediately with
the user-precondition error before any cache mutation and any network
call; with a user present the user is stamped onto the annotation before
encoding (the cache write happens under the stamped annotation's derived
id with the encoding of the stamped annotation), and a `null` encode
result is the hard failure `Unable to encode the annotation`. -/
theorem C8_user_precondition (p : ClioParams) (st : Store) (ann : JVal) (ow : Bool) :
    (jsTruthy (jvalOfOpt p.user) = false →
      updateAnnotationOp p st ann ow =
        (UpdateOutcome.failure (S "Cannot upload an annotation without a user"), st, ann)
      ∧ updateNetCalls (updateAnnotationOp p st ann ow).1 = [])
    ∧ (jsTruthy (jvalOfOpt p.user) = true →
      (encodeAnnotationOp p (setExtField ann (S "user") (jvalOfOpt p.user)) = Option.none →
        updateAnnotationOp p st ann ow =
          (UpdateOutcome.failure (S "Unable to encode the annotation"), st,
            setExtField ann (S "user") (jvalOfOpt p.user))
        ∧ updateNetCalls (updateAnnotationOp p st ann ow).1 = [])
      ∧ (∀ e, encodeAnnotationOp p (setExtField ann (S "user") (jvalOfOpt p.user))
            = Option.some e →
          (updateAnnotationOp p st ann true).2.1 =
            storeUpdate st
              (getAnnotationId (setExtField ann (S "user") (jvalOfOpt p.user)) JVal.undef)
              e)) := by
  constructor
  · intro hu
    have h1 : updateAnnotationOp p st ann ow =
        (UpdateOutcome.failure (S "Cannot upload an annotation without a user"), st, ann) := by
      simp [updateAnnotationOp, hu]
    exact ⟨h1, by rw [h1]; rfl⟩
  · intro hu
    constructor
    · intro he
      have h1 : updateAnnotationOp p st ann ow =
          (UpdateOutcome.failure (S "Unable to encode the annotation"), st,
            setExtField ann (S "user") (jvalOfOpt p.user)) := by
        simp [updateAnnotationOp, hu, he]
      exact ⟨h1, by rw [h1]; rfl⟩
    · intro e he
      obtain ⟨b, hb⟩ := uploadableAnn_ok p (setExtField ann (S "user") (jvalOfOpt p.user))
      cases b <;> simp [updateAnnotationOp, hu, he, hb, storeUpdate]

/-- Witness for C8: without a user the Add rejects with the
user-precondition error; with user `bob` a line annotation under the v2
Atlas collection (whose helper table has no line entry) hits the encode
failure; a point annotation encodes and its entry lands in the cache
under the stamped id. -/
theorem C8_user_precondition_witness :
    updateAnnotationOp paramsV2NoUser [] (mkPointAnn 1 2 3 [] [] (S "Note")) false =
      (UpdateOutcome.failure (S "Cannot upload an annotation without a user"), [],
        mkPointAnn 1 2 3 [] [] (S "Note"))
    ∧ updateAnnotationOp
        (ClioParams.mk (S "http://example.com") (S "ds") (Option.some (S "v2"))
          (Option.some (S "Atlas")) (Option.some (S "bob")) Option.none Option.none)
        [] (mkLineAnn 1 2 3 4 5 6 [] [] (S "Note")) false =
      (UpdateOutcome.failure (S "Unable to encode the annotation"), [],
        setExtField (mkLineAnn 1 2 3 4 5 6 [] [] (S "Note")) (S "user")
          (JVal.str (S "bob")))
    ∧ (updateAnnotationOp paramsV2 [] (mkPointAnn 1 2 3 [] [] (S "Note")) true).2.1 =
        storeUpdate []
          (getAnnotationId
            (setExtField (mkPointAnn 1 2 3 [] [] (S "Note")) (S "user")
              (JVal.str (S "bob"))) JVal.undef)
          ((encodeAnnotationOp paramsV2
            (setExtField (mkPointAnn 1 2 3 [] [] (S "Note")) (S "user")
              (JVal.str (S "bob")))).getD JVal.undef) := by
  refine ⟨?_, ?_, ?_⟩
  · exact ((C8_user_precondition paramsV2NoUser [] (mkPointAnn 1 2 3 [] [] (S "Note"))
      false).1 rfl).1
  · exact (((C8_user_precondition
      (ClioParams.mk (S "http://example.com") (S "ds") (Option.some (S "v2"))
        (Option.some (S "Atlas")) (Option.some (S "bob")) Option.none Option.none)
      [] (mkLineAnn 1 2 3 4 5 6 [] [] (S "Note")) false).2 rfl).1 rfl).1
  · exact ((C8_user_precondition paramsV2 [] (mkPointAnn 1 2 3 [] [] (S "Note"))
      true).2 rfl).2 _ rfl

/-- Claim C2 (amended): on the uploadable path, when the cached raw entry
records a truthy `user` that differs from the session user, Delete
rejects with the permission error before any network call and the cache
entry is not removed. -/
theorem C2_ownership_law_on_uploadable_path (p : ClioParams) (st : Store) (id : JStr)
    (hup : uploadableId p st id = Except.ok true)
    (howner : jsTruthy (jvGet (storeGetValue st id) (S "user")) = true)
    (hdiff : jsSEq (jvGet (storeGetValue st id) (S "user")) (jvalOfOpt p.user) = false) :
    deleteAnnotationOp p st id =
      (DeleteOutcome.failure (S "Unable to delete annotation owned by "
        ++ jsToChars (jvGet (storeGetValue st id) (S "user")) ++ S "."), st)
    ∧ deleteNetCalls (deleteAnnotationOp p st id).1 = []
    ∧ (isAnnotationIdValid id = true → deleteOp p st id = deleteAnnotationOp p st id) := by
  have htr : jsTruthy (storeGetValue st id) = true := by
    rcases hsv : storeGetValue st id <;> rw [hsv] at howner <;>
      simp [jvGet, jsTruthy] at howner ⊢
  have h1 : deleteAnnotationOp p st id =
      (DeleteOutcome.failure (S "Unable to delete annotation owned by "
        ++ jsToChars (jvGet (storeGetValue st id) (S "user")) ++ S "."), st) := by
    simp [deleteAnnotationOp, hup, htr, howner, hdiff]
  refine ⟨h1, by rw [h1]; rfl, ?_⟩
  intro hv
  simp [deleteOp, hv]

/-- Claim C2 (counterexample): with session user `u2` and a cached Atlas
entry recording owner `u1 ≠ u2` but lacking a title, `Delete` does not
reject with a permission error — the id is not uploadable, so the entry
is removed from the cache and the operation resolves locally. -/
theorem C2_counterexample_nonuploadable_owner_mismatch :
    jsTruthy (jvGet (storeGetValue atlasStoreNoTitle (S "Pt1_2_3[user:u1]")) (S "user"))
      = true
    ∧ jsSEq (jvGet (storeGetValue atlasStoreNoTitle (S "Pt1_2_3[user:u1]")) (S "user"))
        (jvalOfOpt paramsAtlasU2.user) = false
    ∧ deleteOp paramsAtlasU2 atlasStoreNoTitle (S "Pt1_2_3[user:u1]")
        = (DeleteOutcome.localResolve, []) :=
  ⟨rfl, rfl, rfl⟩

/-- Witness for the amended C2: the titled Atlas entry is uploadable, so
the same owner mismatch rejects with the permission error, removes
nothing and issues no network call. -/
theorem C2_ownership_law_witness :
    deleteAnnotationOp paramsAtlasU2 atlasStoreTitled (S "Pt1_2_3[user:u1]") =
      (DeleteOutcome.failure (S "Unable to delete annotation owned by "
        ++ jsToChars (jvGet (storeGetValue atlasStoreTitled (S "Pt1_2_3[user:u1]"))
          (S "user")) ++ S "."), atlasStoreTitled)
    ∧ deleteNetCalls
        (deleteAnnotationOp paramsAtlasU2 atlasStoreTitled (S "Pt1_2_3[user:u1]")).1 = [] := by
  have h := C2_ownership_law_on_uploadable_path paramsAtlasU2 atlasStoreTitled
    (S "Pt1_2_3[user:u1]") rfl rfl rfl
  exact ⟨h.1, h.2.1⟩

/-- Claim C10: for every valid id that is not uploadable, Delete removes
the cache entry and resolves locally with no network call and no
permission check — even when the cached owner differs from the session
user (no hypothesis on the owner is needed). -/
theorem C10_nonuploadable_delete_is_local (p : ClioParams) (st : Store) (id : JStr)
    (hv : isAnnotationIdValid id = true)
    (hup : uploadableId p st id = Except.ok false) :
    deleteOp p st id = (DeleteOutcome.localResolve, storeRemove st id)
    ∧ deleteNetCalls (deleteOp p st id).1 = [] := by
  have h1 : deleteOp p st id = (DeleteOutcome.localResolve, storeRemove st id) := by
    simp [deleteOp, hv, deleteAnnotationOp, hup]
  exact ⟨h1, by rw [h1]; rfl⟩

/-- Witness for C10 at the untitled Atlas entry owned by `u1` with
session user `u2`: the delete is local, succeeds, and empties the cache. -/
theorem C10_nonuploadable_delete_is_local_witness :
    deleteOp paramsAtlasU2 atlasStoreNoTitle (S "Pt1_2_3[user:u1]")
      = (DeleteOutcome.localResolve, storeRemove atlasStoreNoTitle (S "Pt1_2_3[user:u1]"))
    ∧ deleteNetCalls
        (deleteOp paramsAtlasU2 atlasStoreNoTitle (S "Pt1_2_3[user:u1]")).1 = [] :=
  C10_nonuploadable_delete_is_local paramsAtlasU2 atlasStoreNoTitle
    (S "Pt1_2_3[user:u1]") rfl rfl

/-- Every decimal digit character is a digit. -/
theorem digitChar_isDigit (n : Nat) : (digitChar n).isDigit = true := by
  unfold digitChar
  split <;> rfl

/-- Digit rendering and digit value are inverse below ten. -/
theorem digVal_digitChar (n : Nat) (h : n < 10) : digVal (digitChar n) = n := by
  interval_cases n <;> rfl

/-- With sufficient fuel, the decimal rendering of a natural number is a
nonempty string of digits. -/
theorem natToCharsAux_spec (fuel : Nat) :
    ∀ n : Nat, n < fuel →
      natToCharsAux fuel n ≠ [] ∧ ∀ c ∈ natToCharsAux fuel n, c.isDigit = true := by
  induction fuel with
  | zero => intro n h; omega
  | succ f ih =>
      intro n _
      unfold natToCharsAux
      by_cases h10 : n < 10
      · simp [h10, digitChar_isDigit]
      · have hdiv : n / 10 < f := by
          have h1 : n / 10 < n := Nat.div_lt_self (by omega) (by omega)
          omega
        have := ih (n / 10) hdiv
        simp only [h10, if_false]
        constructor
        · simp [this.1]
        · intro c hc
          rcases List.mem_append.mp hc with h | h
          · exact this.2 c h
          · simp at h
            subst h
            exact digitChar_isDigit _

/-- The decimal rendering of a natural number is nonempty. -/
theorem natToChars_ne_nil (n : Nat) : natToChars n ≠ [] :=
  (natToCharsAux_spec (n + 1) n (Nat.lt_succ_self n)).1

/-- The decimal rendering of a natural number consists of digits. -/
theorem natToChars_digits (n : Nat) : ∀ c ∈ natToChars n, c.isDigit = true :=
  (natToCharsAux_spec (n + 1) n (Nat.lt_succ_self n)).2

/-- With sufficient fuel, the decimal value of the rendering recovers the
number. -/
theorem natValOf_natToCharsAux (fuel : Nat) :
    ∀ n : Nat, n < fuel → natValOf (natToCharsAux fuel n) = n := by
  induction fuel with
  | zero => intro n h; omega
  | succ f ih =>
      intro n _
      unfold natToCharsAux
      by_cases h10 : n < 10
      · simp only [h10, if_true]
        show natValOf [digitChar n] = n
        simp [natValOf, digVal_digitChar n h10]
      · have hdiv : n / 10 < f := by
          have h1 : n / 10 < n := Nat.div_lt_self (by omega) (by omega)
          omega
        simp only [h10, if_false]
        show natValOf (natToCharsAux f (n / 10) ++ [digitChar (n % 10)]) = n
        unfold natValOf
        rw [List.foldl_append]
        have hrec : List.foldl (fun a c => a * 10 + digVal c) 0 (natToCharsAux f (n / 10))
            = n / 10 := ih (n / 10) hdiv
        rw [hrec]
        show n / 10 * 10 + digVal (digitChar (n % 10)) = n
        rw [digVal_digitChar (n % 10) (Nat.mod_lt n (by omega))]
        omega

/-- The decimal value of `natToChars` recovers the number. -/
theorem natValOf_natToChars (n : Nat) : natValOf (natToChars n) = n :=
  natValOf_natToCharsAux (n + 1) n (Nat.lt_succ_self n)

/-- `takeDigits` consumes exactly a leading block of digits when the
remainder does not begin with one. -/
theorem takeDigits_append (ds rest : JStr)
    (hd : ∀ c ∈ ds, c.isDigit = true)
    (hr : ∀ c, rest.head? = Option.some c → c.isDigit = false) :
    takeDigits (ds ++ rest) = (ds, rest) := by
  induction ds with
  | nil =>
      simp only [List.nil_append]
      cases rest with
      | nil => rfl
      | cons c cs =>
          have := hr c rfl
          simp [takeDigits, this]
  | cons d ds ihd =>
      have hdd : d.isDigit = true := hd d (List.mem_cons_self d ds)
      have hrest : ∀ c ∈ ds, c.isDigit = true := fun c hc => hd c (List.mem_cons_of_mem d hc)
      simp [takeDigits, hdd, ihd hrest]

/-- The rendering of an integer never contains an underscore (it is a
digit string with an optional leading minus sign). -/
theorem intToChars_no_underscore (x : Int) : ∀ c ∈ intToChars x, c ≠ '_' := by
  intro c hc
  unfold intToChars at hc
  by_cases hx : x < 0
  · simp only [hx, if_true] at hc
    rcases List.mem_cons.mp hc with h | h
    · subst h; decide
    · have := natToChars_digits x.natAbs c h
      intro he; subst he; simp at this
  · simp only [hx, if_false] at hc
    have := natToChars_digits x.toNat c hc
    intro he; subst he; simp at this

/-- `pSNum` consumes exactly the rendering of an integer when the
remainder does not begin with a digit. -/
theorem pSNum_intToChars (x : Int) (rest : JStr)
    (hr : ∀ c, rest.head? = Option.some c → c.isDigit = false) :
    pSNum (intToChars x ++ rest) = Option.some rest := by
  unfold intToChars
  by_cases hx : x < 0
  · simp only [hx, if_true]
    show pSNum ('-' :: (natToChars x.natAbs ++ rest)) = Option.some rest
    unfold pSNum pNum
    simp only [List.head?, List.tail]
    rw [takeDigits_append _ _ (natToChars_digits _) hr]
    simp [natToChars_ne_nil x.natAbs]
  · simp only [hx, if_false]
    obtain ⟨c, cs, hcc⟩ : ∃ c cs, natToChars x.toNat = c :: cs := by
      cases hn : natToChars x.toNat with
      | nil => exact absurd hn (natToChars_ne_nil _)
      | cons c cs => exact ⟨c, cs, rfl⟩
    have hcd : c.isDigit = true := by
      have := natToChars_digits x.toNat c
      rw [hcc] at this
      exact this (List.mem_cons_self c cs)
    have hcne : c ≠ '-' := by
      intro he; subst he; simp at hcd
    unfold pSNum
    rw [hcc]
    simp only [List.cons_append, List.head?]
    rw [if_neg (by simpa using hcne)]
    unfold pNum
    have : takeDigits (c :: cs ++ rest) = (c :: cs, rest) := by
      have := takeDigits_append (c :: cs) rest (by rw [← hcc]; exact natToChars_digits _) hr
      simpa using this
    simp only [List.cons_append] at this
    rw [this]
    simp

/-- `pTriple` consumes exactly an `x_y_z` coordinate triple when the
remainder does not begin with a digit. -/
theorem pTriple_ints (x y z : Int) (rest : JStr)
    (hr : ∀ c, rest.head? = Option.some c → c.isDigit = false) :
    pTriple (intToChars x ++ '_' :: (intToChars y ++ '_' :: (intToChars z ++ rest)))
      = Option.some rest := by
  unfold pTriple
  rw [pSNum_intToChars x ('_' :: (intToChars y ++ '_' :: (intToChars z ++ rest)))
    (by intro c h; simp at h; subst h; rfl)]
  simp only [pChar, if_true]
  rw [pSNum_intToChars y ('_' :: (intToChars z ++ rest))
    (by intro c h; simp at h; subst h; rfl)]
  simp only [pChar, if_true]
  exact pSNum_intToChars z rest hr

/-- Claim C9 (amended): every bare `x_y_z-x2_y2_z2-Line` id is classified
Point (the unanchored Point pattern matches its coordinate prefix and is
tried first), the `-Sphere` form likewise; and an id matching none of
the six patterns is classified Invalid. -/
theorem C9_bare_shapes_classified_point (x y z x2 y2 z2 : Int) :
    typeOfAnnotationId (bareShapeId x y z x2 y2 z2 (S "Line")) = Option.some AT_POINT
    ∧ typeOfAnnotationId (bareShapeId x y z x2 y2 z2 (S "Sphere")) = Option.some AT_POINT
    ∧ (∀ id : JStr, matchPointBare id = false → matchPtForm id = false →
        matchBareShape (S "Line") id = false → matchLnForm id = false →
        matchBareShape (S "Sphere") id = false → matchSpForm id = false →
        typeOfAnnotationId id = Option.none) := by
  have hline : matchPointBare (bareShapeId x y z x2 y2 z2 (S "Line")) = true := by
    unfold matchPointBare bareShapeId
    rw [pTriple_ints x y z _ (by intro c h; simp at h; subst h; rfl)]
    rfl
  have hsphere : matchPointBare (bareShapeId x y z x2 y2 z2 (S "Sphere")) = true := by
    unfold matchPointBare bareShapeId
    rw [pTriple_ints x y z _ (by intro c h; simp at h; subst h; rfl)]
    rfl
  refine ⟨?_, ?_, ?_⟩
  · simp [typeOfAnnotationId, hline]
  · simp [typeOfAnnotationId, hsphere]
  · intro id h1 h2 h3 h4 h5 h6
    simp [typeOfAnnotationId, h1, h2, h3, h4, h5, h6]

/-- Witness for the amended C9 at concrete coordinates (including
negative ones) and at an id matching no pattern. -/
theorem C9_bare_shapes_classified_point_witness :
    typeOfAnnotationId (bareShapeId 7 (-8) 9 10 11 (-12) (S "Line")) = Option.some AT_POINT
    ∧ typeOfAnnotationId (bareShapeId 1 2 3 4 5 6 (S "Sphere")) = Option.some AT_POINT
    ∧ typeOfAnnotationId (S "neither-a-point-nor-a-shape") = Option.none := by
  refine ⟨(C9_bare_shapes_classified_point 7 (-8) 9 10 11 (-12)).1,
    (C9_bare_shapes_classified_point 1 2 3 4 5 6).2.1,
    (C9_bare_shapes_classified_point 0 0 0 0 0 0).2.2
      (S "neither-a-point-nor-a-shape") ?_ ?_ ?_ ?_ ?_ ?_⟩
  all_goals decide

/-- The rendering of an integer is nonempty. -/
theorem intToChars_ne_nil (x : Int) : intToChars x ≠ [] := by
  unfold intToChars
  by_cases hx : x < 0
  · simp [hx]
  · simp [hx, natToChars_ne_nil]

/-- JS `+` recovers an integer from its template rendering. -/
theorem jsPlusChars_intToChars (x : Int) : jsPlusChars (intToChars x) = Option.some x := by
  unfold jsPlusChars
  by_cases hx : x < 0
  · have hne : natToChars x.natAbs ≠ [] := natToChars_ne_nil _
    have hall : (natToChars x.natAbs).all Char.isDigit = true := by
      rw [List.all_eq_true]
      intro c hc
      exact natToChars_digits _ c hc
    have h1 : intToChars x = '-' :: natToChars x.natAbs := by
      unfold intToChars
      simp [hx]
    rw [h1]
    simp [hne, hall, natValOf_natToChars]
    rw [abs_of_nonpos (show x ≤ 0 by omega)]
    ring
  · have h1 : intToChars x = natToChars x.toNat := by
      unfold intToChars
      simp [hx]
    rw [h1]
    obtain ⟨c, cs, hcc⟩ : ∃ c cs, natToChars x.toNat = c :: cs := by
      cases hn : natToChars x.toNat with
      | nil => exact absurd hn (natToChars_ne_nil _)
      | cons c cs => exact ⟨c, cs, rfl⟩
    have hcd : c.isDigit = true := by
      have := natToChars_digits x.toNat c
      rw [hcc] at this
      exact this (List.mem_cons_self c cs)
    have hall : (natToChars x.toNat).all Char.isDigit = true := by
      rw [List.all_eq_true]
      intro d hd
      exact natToChars_digits _ d hd
    have hc1 : c ≠ '-' := by intro he; subst he; simp at hcd
    have hc2 : c ≠ '+' := by intro he; subst he; simp at hcd
    rw [hcc]
    rw [hcc] at hall
    simp [hc1, hc2, hall]
    have := natValOf_natToChars x.toNat
    rw [hcc] at this
    rw [this]
    omega

/-- Splitting a separator-free string yields the single piece. -/
theorem splitOnChar_sepfree (sep : Char) (s : JStr) (h : ∀ c ∈ s, c ≠ sep) :
    splitOnChar sep s = [s] := by
  induction s with
  | nil => rfl
  | cons c cs ih =>
      have hc : c ≠ sep := h c (List.mem_cons_self c cs)
      have hrest : ∀ d ∈ cs, d ≠ sep := fun d hd => h d (List.mem_cons_of_mem c hd)
      simp [splitOnChar, hc, ih hrest]

/-- Splitting peels one separator-free piece at a time. -/
theorem splitOnChar_append (sep : Char) (s t : JStr) (h : ∀ c ∈ s, c ≠ sep) :
    splitOnChar sep (s ++ sep :: t) = s :: splitOnChar sep t := by
  induction s with
  | nil => simp [splitOnChar]
  | cons c cs ih =>
      have hc : c ≠ sep := h c (List.mem_cons_self c cs)
      have hrest : ∀ d ∈ cs, d ≠ sep := fun d hd => h d (List.mem_cons_of_mem c hd)
      have := ih hrest
      simp only [List.cons_append, splitOnChar, hc, if_false, this]
      cases hsp : splitOnChar sep (cs ++ sep :: t) with
      | nil => rw [hsp] at this; exact absurd this (by simp)
      | cons a rest =>
          rw [hsp] at this
          simp at this
          simp [this.1, this.2]

/-- The family-A position recovery parses a bare `x_y_z` key back into
its three integer coordinates. -/
theorem getPositionFromKey_bareKey3 (x y z : Int) :
    getPositionFromKey (bareKey3 x y z)
      = Option.some [Option.some x, Option.some y, Option.some z] := by
  have hne : bareKey3 x y z ≠ [] := by
    unfold bareKey3
    cases hn : intToChars x with
    | nil => exact absurd hn (intToChars_ne_nil x)
    | cons a as => simp
  have hsplit : splitOnChar '_' (bareKey3 x y z)
      = [intToChars x, intToChars y, intToChars z] := by
    unfold bareKey3
    rw [splitOnChar_append '_' (intToChars x) _
      (fun c hc => intToChars_no_underscore x c hc)]
    rw [splitOnChar_append '_' (intToChars y) _
      (fun c hc => intToChars_no_underscore y c hc)]
    rw [splitOnChar_sepfree '_' (intToChars z)
      (fun c hc => intToChars_no_underscore z c hc)]
  unfold getPositionFromKey
  rw [if_pos hne, hsplit]
  simp [jsPlusChars_intToChars]

set_option maxHeartbeats 4000000 in
/-- Family-B point round trip under the derived key (user nonempty). -/
theorem C3rt_v2Point (x y z : Int) (c : Char) (cs : JStr) :
    roundTripId v2PointEncode (v2PointDecode (S "Normal"))
      (jsToChars (getAnnotationKey (c3Point x y z (c :: cs)) JVal.undef))
      (c3Point x y z (c :: cs))
    = Option.some (getAnnotationId (c3Point x y z (c :: cs)) JVal.undef) := rfl

set_option maxHeartbeats 4000000 in
/-- Family-B line round trip under the derived key (user nonempty). -/
theorem C3rt_v2Line (x y z x2 y2 z2 : Int) (c : Char) (cs : JStr) :
    roundTripId v2LineEncode v2LineDecode
      (jsToChars (getAnnotationKey (c3Line x y z x2 y2 z2 (c :: cs)) JVal.undef))
      (c3Line x y z x2 y2 z2 (c :: cs))
    = Option.some (getAnnotationId (c3Line x y z x2 y2 z2 (c :: cs)) JVal.undef) := rfl

set_option maxHeartbeats 4000000 in
/-- Family-B sphere round trip under the derived key (user nonempty). -/
theorem C3rt_v2Sphere (x y z x2 y2 z2 : Int) (c : Char) (cs : JStr) :
    roundTripId v2SphereEncode v2SphereDecode
      (jsToChars (getAnnotationKey (c3Sphere x y z x2 y2 z2 (c :: cs)) JVal.undef))
      (c3Sphere x y z x2 y2 z2 (c :: cs))
    = Option.some (getAnnotationId (c3Sphere x y z x2 y2 z2 (c :: cs)) JVal.undef) := rfl

set_option maxHeartbeats 4000000 in
/-- Family-A point round trip under the bare `x_y_z` position key (user
nonempty). -/
theorem C3rt_v1Point (x y z : Int) (c : Char) (cs : JStr) :
    roundTripId v1PointEncode v1PointDecode (bareKey3 x y z) (c3Point x y z (c :: cs))
    = Option.some (getAnnotationId (c3Point x y z (c :: cs)) JVal.undef) := by
  unfold roundTripId v1PointDecode v1PointDecodeE
  rw [getPositionFromKey_bareKey3]
  rfl

/-- Claim C3 (amended): for every pair of integer coordinate vectors and
every nonempty user, decoding the encoder's output yields an annotation
whose derived id equals the derived id of the original fully specified
annotation — for the family-B v2/v3 encoders (point, line, sphere) under
the annotation's derived key, and for the family-A v1 point encoder under
the bare `x_y_z` position key (under the `Pt`-prefixed derived key the
family-A round trip fails; see the counterexample). -/
theorem C3_roundtrip_derived_id (x y z x2 y2 z2 : Int) (u : JStr) (hu : u ≠ []) :
    roundTripId v2PointEncode (v2PointDecode (S "Normal"))
      (jsToChars (getAnnotationKey (c3Point x y z u) JVal.undef)) (c3Point x y z u)
      = Option.some (getAnnotationId (c3Point x y z u) JVal.undef)
    ∧ roundTripId v2LineEncode v2LineDecode
      (jsToChars (getAnnotationKey (c3Line x y z x2 y2 z2 u) JVal.undef))
      (c3Line x y z x2 y2 z2 u)
      = Option.some (getAnnotationId (c3Line x y z x2 y2 z2 u) JVal.undef)
    ∧ roundTripId v2SphereEncode v2SphereDecode
      (jsToChars (getAnnotationKey (c3Sphere x y z x2 y2 z2 u) JVal.undef))
      (c3Sphere x y z x2 y2 z2 u)
      = Option.some (getAnnotationId (c3Sphere x y z x2 y2 z2 u) JVal.undef)
    ∧ roundTripId v1PointEncode v1PointDecode (bareKey3 x y z) (c3Point x y z u)
      = Option.some (getAnnotationId (c3Point x y z u) JVal.undef) := by
  obtain ⟨c, cs, rfl⟩ : ∃ c cs, u = c :: cs := by
    cases u with
    | nil => exact absurd rfl hu
    | cons c cs => exact ⟨c, cs, rfl⟩
  exact ⟨C3rt_v2Point x y z c cs, C3rt_v2Line x y z x2 y2 z2 c cs,
    C3rt_v2Sphere x y z x2 y2 z2 c cs, C3rt_v1Point x y z c cs⟩

/-- Witness for C3 at concrete coordinates and user `bob`. -/
theorem C3_roundtrip_derived_id_witness :
    roundTripId v2SphereEncode v2SphereDecode
      (jsToChars (getAnnotationKey (c3Sphere 1 2 3 4 5 6 (S "bob")) JVal.undef))
      (c3Sphere 1 2 3 4 5 6 (S "bob"))
      = Option.some (getAnnotationId (c3Sphere 1 2 3 4 5 6 (S "bob")) JVal.undef)
    ∧ roundTripId v1PointEncode v1PointDecode (bareKey3 1 2 3) (c3Point 1 2 3 (S "bob"))
      = Option.some (getAnnotationId (c3Point 1 2 3 (S "bob")) JVal.undef) :=
  ⟨(C3_roundtrip_derived_id 1 2 3 4 5 6 (S "bob") (by decide)).2.2.1,
   (C3_roundtrip_derived_id 1 2 3 4 5 6 (S "bob") (by decide)).2.2.2⟩

/-- Claim C3 (counterexample): for the family-A v1 point encoder, the
round trip under the annotation's derived key (`Pt1_2_3`) does not
reconstruct the derived id — the decoder recovers the position from the
key by `+`-converting its `_`-separated parts, so the `Pt`-prefixed part
becomes `NaN` and the reconstructed derived id is `PtNaN_2_3[user:bob]`
instead of `Pt1_2_3[user:bob]`. -/
theorem C3_familyA_derived_key_roundtrip_fails :
    jsToChars (getAnnotationKey (c3Point 1 2 3 (S "bob")) JVal.undef) = S "Pt1_2_3"
    ∧ roundTripId v1PointEncode v1PointDecode (S "Pt1_2_3") (c3Point 1 2 3 (S "bob"))
        = Option.some (S "PtNaN_2_3[user:bob]")
    ∧ getAnnotationId (c3Point 1 2 3 (S "bob")) JVal.undef = S "Pt1_2_3[user:bob]"
    ∧ (S "PtNaN_2_3[user:bob]" : JStr) ≠ S "Pt1_2_3[user:bob]" := by
  refine ⟨rfl, rfl, rfl, by decide⟩

/-- Setting one object key leaves every other key's value unchanged. -/
theorem objGetD_objSet_ne (f : List (JStr × JVal)) (k k' : JStr) (v : JVal)
    (h : (k == k') = false) : objGetD (objSet f k v) k' = objGetD f k' := by
  induction f with
  | nil => simp [objSet, objGetD, h]
  | cons kv rest ih =>
      by_cases hk : (kv.1 == k) = true
      · have he : kv.1 = k := eq_of_beq hk
        simp [objSet, hk, objGetD, he, h]
      · simp only [objSet]
        rw [if_neg (by simpa using hk)]
        simp [objGetD, ih]

/-- Stamping the `source` provenance tag does not change the derived
id. -/
theorem getAnnotationId_source_irrelevant (a v : JVal) :
    getAnnotationId (jvSet a (S "source") v) JVal.undef = getAnnotationId a JVal.undef := by
  cases a with
  | obj f =>
      have h1 : ∀ k' : JStr, (S "source" == k') = false →
          jvGet (JVal.obj (objSet f (S "source") v)) k' = jvGet (JVal.obj f) k' := by
        intro k' h
        simp [jvGet, objGetD_objSet_ne f _ k' v h]
      unfold getAnnotationId getAnnotationKey getAnnotationUser
      simp only [jvSet]
      rw [h1 (S "key") (by decide), h1 (S "type") (by decide), h1 (S "point") (by decide),
        h1 (S "pointA") (by decide), h1 (S "pointB") (by decide), h1 (S "ext") (by decide),
        h1 (S "prop") (by decide)]
  | undef => rfl
  | null => rfl
  | bool b => rfl
  | num n => rfl
  | str s => rfl
  | arr xs => rfl

set_option synthInstance.maxHeartbeats 1000000 in
/-- `processEntry` on an object entry never throws and performs exactly
the `processedResult` update. -/
theorem processEntry_obj (p : ClioParams) (emitting : Bool) (index lastIndex : Nat)
    (acc : ParseResult) (k : JStr) (f : List (JStr × JVal)) :
    processEntry p emitting index lastIndex acc k (JVal.obj f)
      = Except.ok (processedResult p emitting index lastIndex acc k f) := by
  by_cases hKind : objHas f (S "Kind") = true <;>
    simp only [processEntry, processedResult, decodeOfEntry, decodeKeyOf, defaultedEntry,
      jsTruthy, jsHasE, jsGetE, jvGet, jvSet, hKind, Bind.bind, Pure.pure,
      Except.instMonad, Except.bind, Except.pure, Bool.not_eq_true, not_true,
      not_false_iff, if_true, if_false, ite_true, ite_false] <;>
    split <;> rename_i heq <;> simp only [heq]

/-- A derived id is never the empty string (it ends with `]`), so the
cache insert is never a no-op. -/
theorem getAnnotationId_ne_nil (a kh : JVal) : getAnnotationId a kh ≠ [] := by
  unfold getAnnotationId
  intro h
  rcases List.append_eq_nil.mp h with ⟨-, h2⟩
  exact absurd h2 (by decide)

/-- The bulk fold over object entries never throws; its cache is the
per-entry fold and its serialized count adds one per decoded entry. -/
theorem parseEntriesAux_spec (p : ClioParams) (emitting : Bool) (lastIndex : Nat) :
    ∀ (fields : List (JStr × JVal)) (index : Nat) (acc : ParseResult),
      (∀ kv ∈ fields, ∃ f, kv.2 = JVal.obj f) →
      ∃ r, parseEntriesAux p emitting lastIndex index acc fields = Except.ok r
        ∧ r.store = c7FoldFrom p acc.store fields
        ∧ r.serialized.length = acc.serialized.length + (successIds p fields).length := by
  intro fields
  induction fields with
  | nil =>
      intro index acc h
      exact ⟨acc, rfl, rfl, by simp [successIds]⟩
  | cons kv rest ih =>
      intro index acc h
      obtain ⟨kk, vv⟩ := kv
      obtain ⟨f, hf⟩ := h (kk, vv) (List.mem_cons_self _ rest)
      simp only at hf
      subst hf
      have hrest : ∀ kv ∈ rest, ∃ f, kv.2 = JVal.obj f :=
        fun kv hkv => h kv (List.mem_cons_of_mem _ hkv)
      obtain ⟨r, hr, hstore, hlen⟩ :=
        ih (index + 1) (processedResult p emitting index lastIndex acc kk f) hrest
      refine ⟨r, ?_, ?_, ?_⟩
      · show (do
          let acc1 ← processEntry p emitting index lastIndex acc kk (JVal.obj f)
          parseEntriesAux p emitting lastIndex (index + 1) acc1 rest) = Except.ok r
        rw [processEntry_obj]
        simpa [Bind.bind, Except.bind] using hr
      · rw [hstore]
        show c7FoldFrom p (processedResult p emitting index lastIndex acc kk f).store rest
          = c7FoldFrom p acc.store ((kk, JVal.obj f) :: rest)
        cases hdec : decodeOfEntry p kk (JVal.obj f) <;>
          simp [c7FoldFrom, processedResult, hdec, getAnnotationId_source_irrelevant]
      · rw [hlen]
        cases hdec : decodeOfEntry p kk (JVal.obj f) <;>
          simp [processedResult, successIds, hdec] <;> omega

/-- `parseAnnotations` on an all-object response: no abort, cache as
per-entry fold, serialized count equals the number of decoded entries. -/
theorem parseAnnotations_obj (p : ClioParams) (st0 : Store)
    (fields : List (JStr × JVal)) (emitting : Bool)
    (hobj : ∀ kv ∈ fields, ∃ f, kv.2 = JVal.obj f) :
    ∃ r, parseAnnotations p st0 (JVal.obj fields) emitting = Except.ok r
      ∧ r.store = c7FoldFrom p st0 fields
      ∧ r.serialized.length = (successIds p fields).length := by
  obtain ⟨r, hr, hs, hl⟩ := parseEntriesAux_spec p emitting (fields.length - 1) fields 0
    (ParseResult.mk st0 [] []) hobj
  refine ⟨r, ?_, hs, ?_⟩
  · simpa [parseAnnotations, jsTruthy] using hr
  · simpa using hl

/-- Successes and failures partition the batch. -/
theorem successIds_length_add (p : ClioParams) (fields : List (JStr × JVal)) :
    (successIds p fields).length
      + (fields.filter (fun kv => (decodeOfEntry p kv.1 kv.2).isNone)).length
      = fields.length := by
  induction fields with
  | nil => rfl
  | cons kv rest ih =>
      cases hdec : decodeOfEntry p kv.1 kv.2 <;>
        simp [successIds, hdec, List.filter] at ih ⊢ <;>
        omega

/-- Inserting a fresh key grows the object by exactly one entry and
appends the key. -/
theorem objSet_fresh (f : List (JStr × JVal)) (k : JStr) (v : JVal)
    (h : k ∉ f.map Prod.fst) :
    (objSet f k v).length = f.length + 1
    ∧ (objSet f k v).map Prod.fst = f.map Prod.fst ++ [k] := by
  induction f with
  | nil => simp [objSet]
  | cons kv rest ih =>
      have hk : ¬(kv.1 == k) = true := by
        intro hb
        exact h (by simp [← eq_of_beq hb])
      have hrest : k ∉ rest.map Prod.fst := by
        intro hm
        exact h (by simp [hm])
      have := ih hrest
      simp [objSet, hk, this.1, this.2]

/-- With pairwise distinct derived ids, the bulk-parse cache holds one
entry per success. -/
theorem c7FoldFrom_length (p : ClioParams) :
    ∀ (fields : List (JStr × JVal)) (st : Store),
      (successIds p fields).Nodup →
      (∀ id ∈ successIds p fields, id ∉ st.map Prod.fst) →
      (c7FoldFrom p st fields).length = st.length + (successIds p fields).length := by
  intro fields
  induction fields with
  | nil => intro st h1 h2; simp [c7FoldFrom, successIds]
  | cons kv rest ih =>
      intro st h1 h2
      cases hdec : decodeOfEntry p kv.1 kv.2 with
      | none =>
          have h1r : (successIds p rest).Nodup := by
            simpa [successIds, hdec] using h1
          have h2r : ∀ id ∈ successIds p rest, id ∉ st.map Prod.fst := by
            intro id hid
            exact h2 id (by simpa [successIds, hdec] using hid)
          have := ih st h1r h2r
          simpa [c7FoldFrom, hdec, successIds] using this
      | some a =>
          have hids : successIds p (kv :: rest)
              = getAnnotationId a JVal.undef :: successIds p rest := by
            simp [successIds, hdec]
          rw [hids] at h1 h2
          have h1r : (successIds p rest).Nodup := h1.of_cons
          have hnotin : getAnnotationId a JVal.undef ∉ successIds p rest := by
            have := List.nodup_cons.mp h1
            exact this.1
          have hfresh : getAnnotationId a JVal.undef ∉ st.map Prod.fst :=
            h2 _ (List.mem_cons_self _ _)
          have hadd : storeAdd st (getAnnotationId a JVal.undef) (defaultedEntry p kv.2)
              = objSet st (getAnnotationId a JVal.undef) (defaultedEntry p kv.2) := by
            simp [storeAdd, getAnnotationId_ne_nil]
          have hobjset := objSet_fresh st (getAnnotationId a JVal.undef)
            (defaultedEntry p kv.2) hfresh
          have h2r : ∀ id ∈ successIds p rest,
              id ∉ (objSet st (getAnnotationId a JVal.undef)
                (defaultedEntry p kv.2)).map Prod.fst := by
            intro id hid
            rw [hobjset.2]
            intro hmem
            rcases List.mem_append.mp hmem with hm | hm
            · exact h2 id (List.mem_cons_of_mem _ hid) hm
            · simp at hm
              subst hm
              exact hnotin hid
          have := ih (objSet st (getAnnotationId a JVal.undef) (defaultedEntry p kv.2))
            h1r h2r
          calc (c7FoldFrom p st (kv :: rest)).length
              = (c7FoldFrom p (objSet st (getAnnotationId a JVal.undef)
                  (defaultedEntry p kv.2)) rest).length := by
                simp [c7FoldFrom, hdec, hadd]
            _ = st.length + 1 + (successIds p rest).length := by
                rw [this, hobjset.1]
            _ = st.length + (successIds p (kv :: rest)).length := by
                rw [hids]
                simp
                omega

/-- Claim C7 (amended): a bulk download clears the endpoint's cache
before the single GET (the result is independent of the prior cache
contents and exactly one GET of the all-annotations URL is issued); on a
response whose entry values are all objects, the batch never aborts; each
entry lacking a `Kind` discriminant has it defaulted from the
collection's configured kind before decoding and each entry that fails to
decode is skipped; every successfully decoded entry is stored in the
cache under its derived id and included in the serialized output, so N
entries with k decode failures yield exactly N−k serialized annotations —
and exactly N−k cached annotations provided the derived ids of the
successes are pairwise distinct (colliding ids collapse to one
last-write-wins cache entry; see the counterexample, which also shows the
batch aborting on a null entry value). -/
theorem C7_bulk_download_parse (p : ClioParams) (st1 st2 : Store)
    (fields : List (JStr × JVal)) (hobj : ∀ kv ∈ fields, ∃ f, kv.2 = JVal.obj f) :
    downloadOp p st1 (JVal.obj fields) = downloadOp p st2 (JVal.obj fields)
    ∧ (downloadOp p st1 (JVal.obj fields)).2 = [NetCall.get (getAllAnnotationsUrl p)]
    ∧ ∃ r, parseAnnotations p [] (JVal.obj fields) true = Except.ok r
        ∧ r.store = c7FoldFrom p [] fields
        ∧ r.serialized.length = (successIds p fields).length
        ∧ r.serialized.length
            + (fields.filter (fun kv => (decodeOfEntry p kv.1 kv.2).isNone)).length
            = fields.length
        ∧ ((successIds p fields).Nodup → r.store.length = r.serialized.length) := by
  refine ⟨rfl, rfl, ?_⟩
  obtain ⟨r, hr, hs, hl⟩ := parseAnnotations_obj p [] fields true hobj
  refine ⟨r, hr, hs, hl, ?_, ?_⟩
  · rw [hl]
    exact successIds_length_add p fields
  · intro hnd
    rw [hs, hl]
    have := c7FoldFrom_length p fields [] hnd (by intro id hid; simp)
    simpa using this

/-- Claim C7 (counterexample): a `null` entry value aborts the whole
batch with a `TypeError` (the unguarded `response.key` read), instead of
being skipped; and a batch of two decodable entries with colliding
derived ids caches one annotation while serializing two, not the claimed
N−k = 2 cached. -/
theorem C7_counterexample_crash_and_collision :
    parseAnnotations paramsV2 [] c7RespCrash true = Except.error (S "TypeError")
    ∧ (parseAnnotations paramsV2 [] (JVal.obj c7CollFields) true).toOption.map
        (fun r => (r.store.length, r.serialized.length)) = Option.some (1, 2)
    ∧ (c7CollFields.filter
        (fun kv => (decodeOfEntry paramsV2 kv.1 kv.2).isNone)).length = 0 :=
  ⟨rfl, rfl, rfl⟩

/-- Witness for the amended C7 at the concrete three-entry batch: two
entries decode and one fails, yielding two serialized and two cached
annotations. -/
theorem C7_bulk_download_parse_witness :
    (parseAnnotations paramsV2 [] (JVal.obj c7Fields) true).toOption.map
        (fun r => (r.store.length, r.serialized.length)) = Option.some (2, 2)
    ∧ (c7Fields.filter
        (fun kv => (decodeOfEntry paramsV2 kv.1 kv.2).isNone)).length = 1
    ∧ c7Fields.length = 3 := by
  have hobj : ∀ kv ∈ c7Fields, ∃ f, kv.2 = JVal.obj f := by
    intro kv hkv
    simp [c7Fields] at hkv
    rcases hkv with rfl | rfl | rfl <;> exact ⟨_, rfl⟩
  obtain ⟨r, hr, hs, hl, hcount, hnd⟩ :=
    (C7_bulk_download_parse paramsV2 [] [] c7Fields hobj).2.2
  have hids : successIds paramsV2 c7Fields
      = [S "1_2_3[user:u]", S "4_4_4[user:w]"] := rfl
  have hstl : r.store.length = 2 := by
    have := hnd (by rw [hids]; decide)
    rw [this, hl, hids]
    rfl
  have hsl : r.serialized.length = 2 := by
    rw [hl, hids]
    rfl
  refine ⟨?_, rfl, rfl⟩
  rw [hr]
  show Option.some (List.length r.store, r.serialized.length) = Option.some (2, 2)
  rw [hstl, hsl]
